import Mathlib

/-!
# Formal model of the voice-assistant booking core

Shallow embedding of the reservation ledger (`db.js`), the booking
orchestrator (`createBookingFlow`), the retry worker, the token-vault
accessors, the business-hours classifier and the busy-interval
normalizer of the repository, together with proofs of the spec claims.

Conventions of the embedding:
* ISO-8601 UTC timestamp strings are order-isomorphic to their instants,
  so timestamps are carried as `Int` (minutes for the ledger and the
  orchestrator, seconds for the retry worker, matching each claim's
  granularity).  Comparisons translate verbatim.
* SQL `NULL` / absent JS values become `Option`; JS truthiness of a
  string is `s ≠ ""`.
* Fallible JS code (throwing) returns `Except`; a throw that happens
  before any write leaves the modelled state untouched by construction,
  mirroring the source where the throw precedes the UPDATE/INSERT.
-/

namespace Spec2Proof

/-- JS `x || y` for optional strings: `""`, `null` and `undefined` are falsy. -/
def strTruthy : Option String → Bool
  | none => false
  | some s => s ≠ ""

/-- JS `a || b` on two optional strings. -/
def jsOrStr (a b : Option String) : Option String :=
  if strTruthy a then a else b

/-- JS `a || b` where `a` is a nullable number and `b` a number: `null`,
`undefined` and `0` select the fallback. -/
def jsOrInt (a : Option Int) (b : Int) : Int :=
  match a with
  | none => b
  | some v => if v = 0 then b else v

/-- JS `s || null` for a nullable string (empty string collapses to null). -/
def jsOrNull (s : Option String) : Option String :=
  if strTruthy s then s else none

/-- JS `String.prototype.trim`: strip leading and trailing whitespace. -/
def trimStr (s : String) : String :=
  String.mk (((s.toList.dropWhile Char.isWhitespace).reverse.dropWhile Char.isWhitespace).reverse)

/-! ## Retry worker

Source: the retry-worker module (`computeDelaySeconds`, `runRetriesOnce`)
and `db.js` (`listDueRetries`, `markRetryAttempt`).  Time unit: seconds.
-/

namespace Retry

inductive RStatus
  | pending
  | succeeded
  | failed
deriving DecidableEq, Repr

/-- A row of the `retries` table (columns the worker reads/writes). -/
structure RetryTask where
  rid : String
  attempt_count : Nat
  max_attempts : Nat
  next_attempt_at_utc : Int
  last_error : Option String
  status : RStatus
  created_at_utc : Int
deriving DecidableEq, Repr

/-- `computeDelaySeconds`: `Math.min(30 * 2 ** Math.max(0, attemptCount - 1), 30 * 60)`.
`Nat` truncated subtraction coincides with `Math.max(0, attemptCount - 1)`. -/
def computeDelaySeconds (attemptCount : Nat) : Nat :=
  min (30 * 2 ^ (attemptCount - 1)) (30 * 60)

/-- `db.js` `markRetryAttempt`: single-row UPDATE of the four mutable columns. -/
def markRetryAttempt (t : RetryTask) (attemptCount : Nat) (nextAttemptAtUtc : Int)
    (status : RStatus) (lastError : Option String) : RetryTask :=
  { t with
    attempt_count := attemptCount
    next_attempt_at_utc := nextAttemptAtUtc
    status := status
    last_error := lastError }

/-- Outcome of `executeRetry` for one task (the executor's side effects are
external; only success vs. thrown error reaches the attempt accounting). -/
inductive ExecOutcome
  | success
  | failure (message : String)
deriving DecidableEq, Repr

/-- The per-task body of `runRetriesOnce`: bump the attempt count, then mark
`succeeded` on success, or `failed`/`pending` with backoff on exception.
`Number(retry.attempt_count || 0) + 1` is `t.attempt_count + 1`, and
`Number(retry.max_attempts || 5)` substitutes `5` when the column is `0`. -/
def runRetryTaskOnce (now : Int) (t : RetryTask) (outcome : ExecOutcome) : RetryTask :=
  let attemptCount := t.attempt_count + 1
  match outcome with
  | .success =>
      markRetryAttempt t attemptCount t.next_attempt_at_utc .succeeded none
  | .failure msg =>
      let maxAttempts := if t.max_attempts = 0 then 5 else t.max_attempts
      if attemptCount ≥ maxAttempts then
        markRetryAttempt t attemptCount t.next_attempt_at_utc .failed (some msg)
      else
        markRetryAttempt t attemptCount (now + (computeDelaySeconds attemptCount : Int))
          .pending (some msg)

/-- `db.js` `listDueRetries`: `WHERE status='pending' AND next_attempt_at_utc <= ?
ORDER BY next_attempt_at_utc ASC, created_at_utc ASC LIMIT ?`. -/
def listDueRetries (now : Int) (tasks : List RetryTask) (limit : Nat) : List RetryTask :=
  (((tasks.filter fun t =>
        decide (t.status = RStatus.pending) && decide (t.next_attempt_at_utc ≤ now))).mergeSort
      fun a b =>
        decide (a.next_attempt_at_utc < b.next_attempt_at_utc) ||
          (decide (a.next_attempt_at_utc = b.next_attempt_at_utc) &&
            decide (a.created_at_utc ≤ b.created_at_utc))).take limit

end Retry

/-! ## Token vault accessors

Source: `src/security/tokens.js` (`decryptToken` signature and its guard) and
`db.js` (`getGoogleTokens`).  The AES-256-GCM core lives in Node's `crypto`
library, outside the repository; it is a parameter `core` of the model.  What
the repository's own code contributes — the falsy-argument guard of
`decryptToken` and the call shape in `getGoogleTokens` — is modelled exactly.
-/

namespace Tokens

/-- The JS values that reach `decryptToken`'s parameters in the repository:
`undefined`, a string, or (from the buggy call site) an object literal. -/
inductive JsVal
  | undef
  | str (s : String)
  | obj
deriving DecidableEq, Repr

def jsTruthy : JsVal → Bool
  | .undef => false
  | .str s => s ≠ ""
  | .obj => true

/-- `decryptToken(enc, iv, tag)`: `if (!enc || !iv || !tag) return null;` then
the AES-256-GCM decryption (`core`), whose thrown error surfaces as `.error`. -/
def decryptToken (core : JsVal → JsVal → JsVal → Except String String)
    (enc iv tag : JsVal) : Except String (Option String) :=
  if !jsTruthy enc || !jsTruthy iv || !jsTruthy tag then Except.ok none
  else (core enc iv tag).map some

/-- A row of `google_tokens` (columns `getGoogleTokens` touches). -/
structure GoogleTokensRow where
  business_id : String
  access_token : Option String
  refresh_token : Option String
  refresh_token_enc : Option String
  refresh_token_iv : Option String
  refresh_token_tag : Option String
deriving DecidableEq, Repr

/-- `db.js` `getGoogleTokens` after the SELECT returned `row` (`none` = no row).
When any encrypted field is present it requires all three non-blank, trims
them, then executes `row.refresh_token = decryptToken({enc, iv, tag})` —
a call with a SINGLE object argument, so the positional `iv` and `tag`
parameters of `decryptToken` are `undefined`. -/
def getGoogleTokens (core : JsVal → JsVal → JsVal → Except String String)
    (row : Option GoogleTokensRow) : Except String (Option GoogleTokensRow) :=
  match row with
  | none => Except.ok none
  | some row =>
    let anyEncField := row.refresh_token_enc.isSome || row.refresh_token_iv.isSome ||
      row.refresh_token_tag.isSome
    if anyEncField then
      let encVal := trimStr (row.refresh_token_enc.getD "")
      let ivVal := trimStr (row.refresh_token_iv.getD "")
      let tagVal := trimStr (row.refresh_token_tag.getD "")
      if encVal = "" || ivVal = "" || tagVal = "" then
        Except.error "Corrupt encrypted refresh token fields (enc/iv/tag mismatch)"
      else
        let row1 := { row with
          refresh_token_enc := some encVal
          refresh_token_iv := some ivVal
          refresh_token_tag := some tagVal }
        match decryptToken core JsVal.obj JsVal.undef JsVal.undef with
        | Except.ok v => Except.ok (some { row1 with refresh_token := v })
        | Except.error e => Except.error ("Failed to decrypt refresh_token: " ++ e)
    else
      Except.ok (some { row with refresh_token := none })

end Tokens

/-! ## Business-hours classifier

Source: `src/emergency/businessHours.js`.  A `working_hours_json` column is a
raw JSON string; its parse outcome is modelled by `WhJson` (the code only ever
reads the `mon`..`fri` keys, each expected to be an array of objects with
optional `start`/`end` string fields).  Timezone resolution (luxon's
`setZone`) is abstracted by a `zones` map from zone name to the UTC→local
conversion (`none` = invalid zone, making `localStart.isValid` false).
-/

namespace BH

/-- One entry of a weekday's window array, as read by the code
(`windows[i]?.start`, `windows[i]?.end`). -/
structure WhEntry where
  winStart : Option String
  winEnd : Option String
deriving DecidableEq, Repr

/-- The `mon`..`fri` keys of a successfully parsed `working_hours_json`
(`none` = the key is not an array, which the code replaces by `[]`). -/
structure ParsedWh where
  mon : Option (List WhEntry) := none
  tue : Option (List WhEntry) := none
  wed : Option (List WhEntry) := none
  thu : Option (List WhEntry) := none
  fri : Option (List WhEntry) := none
deriving DecidableEq, Repr

/-- Parse outcome of the raw `working_hours_json` value. -/
inductive WhJson
  | absent
  | blank
  | malformed
  | parsed (wh : ParsedWh)
deriving DecidableEq, Repr

/-- The profile argument of `isOutsideBusinessHours` (fields it reads). -/
structure BHProfile where
  timezone : Option String := none
  working_hours_start : Option String := none
  workingHoursStart : Option String := none
  working_hours_end : Option String := none
  workingHoursEnd : Option String := none
  working_hours_json : WhJson := WhJson.absent
deriving DecidableEq, Repr

/-- Split a character list at every `':'` (the groups of the `HH:MM` regex). -/
def splitOnColon (cs : List Char) : List (List Char) :=
  match cs with
  | [] => [[]]
  | c :: rest =>
    if c = ':' then [] :: splitOnColon rest
    else
      match splitOnColon rest with
      | [] => [[c]]
      | g :: gs => (c :: g) :: gs

/-- Decimal value of a digit string. -/
def digitsToNat (cs : List Char) : Nat :=
  cs.foldl (fun acc c => acc * 10 + (c.toNat - ('0').toNat)) 0

/-- `parseTimeToMinutes`: the regex `^(\d{1,2}):(\d{2})$` with
`0 ≤ hours ≤ 23` and `0 ≤ minutes ≤ 59`, returning `hours * 60 + minutes`. -/
def parseTimeToMinutes (value : String) : Option Nat :=
  match splitOnColon value.toList with
  | [h, m] =>
    if 1 ≤ h.length && h.length ≤ 2 && m.length = 2 &&
        h.all Char.isDigit && m.all Char.isDigit then
      let hours := digitsToNat h
      let minutes := digitsToNat m
      if hours ≤ 23 && minutes ≤ 59 then some (hours * 60 + minutes) else none
    else none
  | _ => none

/-- One iteration of the `for (const day of weekdays)` loop body in
`getProfileHours`: return `{start: windows[0].start, end: windows[last].end}`
when the day's window list is non-empty and both of those fields are truthy
strings, otherwise skip to the next day. -/
def dayWindowHours (day : Option (List WhEntry)) : Option (String × String) :=
  let windows := day.getD []
  match windows.head?, windows.getLast? with
  | some w0, some wn =>
    match w0.winStart, wn.winEnd with
    | some s, some e => if s ≠ "" && e ≠ "" then some (s, e) else none
    | _, _ => none
  | _, _ => none

/-- `getProfileHours`: explicit `working_hours_start`/`working_hours_end`
(or their camelCase aliases) when both are truthy; otherwise scan the parsed
`working_hours_json` over `["mon","tue","wed","thu","fri"]`. -/
def getProfileHours (p : BHProfile) : Option (String × String) :=
  let explicitStart := jsOrStr p.working_hours_start p.workingHoursStart
  let explicitEnd := jsOrStr p.working_hours_end p.workingHoursEnd
  if strTruthy explicitStart && strTruthy explicitEnd then
    some (explicitStart.getD "", explicitEnd.getD "")
  else
    match p.working_hours_json with
    | WhJson.parsed wh =>
      (dayWindowHours wh.mon).orElse fun _ =>
        (dayWindowHours wh.tue).orElse fun _ =>
          (dayWindowHours wh.wed).orElse fun _ =>
            (dayWindowHours wh.thu).orElse fun _ =>
              dayWindowHours wh.fri
    | _ => none

/-- The zone name resolved by `isOutsideBusinessHours`:
`businessProfile?.timezone || "UTC"`. -/
def resolvedTz (p : BHProfile) : String :=
  (jsOrStr p.timezone (some "UTC")).getD "UTC"

/-- `isOutsideBusinessHours({startUtc, businessProfile})`.  `startUtc` is the
instant in UTC minutes (`none` = missing).  `zones` resolves the zone name to
the UTC→local-minutes conversion; `localStart.hour * 60 + localStart.minute`
is the local minutes modulo 1440. -/
def isOutsideBusinessHours (zones : String → Option (Int → Int))
    (startUtc : Option Int) (p : BHProfile) : Bool :=
  match startUtc with
  | none => false
  | some t =>
    match zones (resolvedTz p) with
    | none => false
    | some toLocal =>
      match getProfileHours p with
      | none => false
      | some (hs, he) =>
        match parseTimeToMinutes hs, parseTimeToMinutes he with
        | some startMinutes, some endMinutes =>
          let currentMinutes : Int := toLocal t % 1440
          if startMinutes = endMinutes then false
          else if startMinutes < endMinutes then
            decide (currentMinutes < (startMinutes : Int) ∨ (endMinutes : Int) ≤ currentMinutes)
          else
            decide ((endMinutes : Int) ≤ currentMinutes ∧ currentMinutes < (startMinutes : Int))
        | _, _ => false

/-- The window-derivation rule exactly as claim C10 words it ("the first
window's start and last window's end of the first weekday among mon..fri that
has a non-empty window list"), for comparison against `getProfileHours`. -/
def claimStatedProfileHours (p : BHProfile) : Option (String × String) :=
  let explicitStart := jsOrStr p.working_hours_start p.workingHoursStart
  let explicitEnd := jsOrStr p.working_hours_end p.workingHoursEnd
  if strTruthy explicitStart && strTruthy explicitEnd then
    some (explicitStart.getD "", explicitEnd.getD "")
  else
    match p.working_hours_json with
    | WhJson.parsed wh =>
      match [wh.mon, wh.tue, wh.wed, wh.thu, wh.fri].find? (fun d => !(d.getD []).isEmpty) with
      | some day =>
        match (day.getD []).head?, (day.getD []).getLast? with
        | some w0, some wn =>
          match w0.winStart, wn.winEnd with
          | some s, some e => if s ≠ "" && e ≠ "" then some (s, e) else none
          | _, _ => none
        | _, _ => none
      | none => none
    | _ => none

end BH

/-! ## Busy-interval normalizer

Source: `src/slots.js` (`normalizeBusyUtc`, `mergeIntervals`).  The claim's
scope is inputs whose `start`/`end` are valid ISO strings, so an input is an
instant pair (the source's `.filter(Boolean)` over invalid parses is outside
the claim's hypothesis and drops nothing here).  `DateTime.toMillis`
comparisons become `Int` comparisons; field names `start`/`end` become
`istart`/`iend` (`end` is a Lean keyword).
-/

namespace Slots

structure Interval where
  istart : Int
  iend : Int
deriving DecidableEq, Repr

/-- `intervals.slice().sort((x, y) => x.start.toMillis() - y.start.toMillis())`. -/
def sortByStart (l : List Interval) : List Interval :=
  l.mergeSort fun x y => decide (x.istart ≤ y.istart)

/-- The loop of `mergeIntervals`: `last` is the interval currently being
accumulated (the mutable `out[out.length - 1]` of the source); when
`cur.start <= last.end` the accumulator's end becomes `max(last.end, cur.end)`,
otherwise `last` is emitted and `cur` starts a new accumulator. -/
def mergeGo (last : Interval) : List Interval → List Interval
  | [] => [last]
  | cur :: rest =>
    if cur.istart ≤ last.iend then
      mergeGo { istart := last.istart, iend := max last.iend cur.iend } rest
    else
      last :: mergeGo cur rest

/-- `mergeIntervals`: sort by start, then sweep. -/
def mergeIntervals (intervals : List Interval) : List Interval :=
  match sortByStart intervals with
  | [] => []
  | first :: rest => mergeGo first rest

/-- An input busy interval (valid `startUtcIso`/`endUtcIso` instants). -/
structure BusyInput where
  bstart : Int
  bend : Int
deriving DecidableEq, Repr

/-- `normalizeBusyUtc(busy, bufferBeforeMin, bufferAfterMin)`: expand each
interval by the buffers (`start.minus`, `end.plus`) and merge. -/
def normalizeBusyUtc (busy : List BusyInput) (bufferBeforeMin bufferAfterMin : Int) :
    List Interval :=
  mergeIntervals (busy.map fun b =>
    { istart := b.bstart - bufferBeforeMin, iend := b.bend + bufferAfterMin })

/-- Membership of an instant in an interval (half-open, matching the strict
overlap rule `a.start < b.end AND a.end > b.start` of the source). -/
def inIv (t : Int) (iv : Interval) : Prop :=
  iv.istart ≤ t ∧ t < iv.iend

instance (t : Int) (iv : Interval) : Decidable (inIv t iv) := by
  unfold inIv; infer_instance

/-- Membership of an instant in the union of a list of intervals. -/
def inUnion (t : Int) (l : List Interval) : Prop :=
  ∃ iv ∈ l, inIv t iv

end Slots

/-! ## Reservation ledger

Source: `db.js` — the `bookings` table and the operations
`cleanupExpiredHolds`, `createPendingHoldIfAvailableTx`, `updateBookingStatus`
with its wrappers `confirmBooking` / `failBooking` / `cancelBooking`.
`overlap_start_utc`/`overlap_end_utc` are non-null on every row this model can
create (every INSERT sets them, defaulting to `start_utc`/`end_utc`), so the
SQL `COALESCE(overlap_start_utc, start_utc)` is the `overlap_*` field itself.
-/

namespace Ledger

inductive BStatus
  | pending
  | confirmed
  | failed
  | cancelled
deriving DecidableEq, Repr

/-- `BOOKING_TRANSITIONS` of `db.js`. -/
def allowedTransition : BStatus → BStatus → Bool
  | .pending, .confirmed => true
  | .pending, .failed => true
  | .pending, .cancelled => true
  | .confirmed, .cancelled => true
  | _, _ => false

/-- `failed` and `cancelled` have empty transition sets: they are terminal. -/
def BStatus.isTerminal : BStatus → Bool
  | .failed => true
  | .cancelled => true
  | _ => false

/-- A row of the `bookings` table (columns the modelled operations touch). -/
structure Booking where
  bid : String
  business_id : String
  start_utc : Int
  end_utc : Int
  overlap_start_utc : Int
  overlap_end_utc : Int
  status : BStatus
  hold_expires_at_utc : Option Int
  slot_key : String
  idempotency_key : Option String
  customer_phone : Option String
  gcal_event_id : Option String
  failure_reason : Option String
  job_summary : Option String
deriving DecidableEq, Repr

abbrev BookingsTable := List Booking

/-- The active predicate of the overlap queries:
`status='confirmed' OR (status='pending' AND (hold_expires_at_utc IS NULL OR
hold_expires_at_utc > now))`. -/
def isActive (now : Int) (b : Booking) : Bool :=
  decide (b.status = BStatus.confirmed) ||
    (decide (b.status = BStatus.pending) &&
      match b.hold_expires_at_utc with
      | none => true
      | some h => decide (now < h))

/-- The claim's overlap formula
`a.overlap_start_utc < b.overlap_end_utc AND a.overlap_end_utc > b.overlap_start_utc`. -/
def overlapsB (a b : Booking) : Prop :=
  a.overlap_start_utc < b.overlap_end_utc ∧ a.overlap_end_utc > b.overlap_start_utc

instance (a b : Booking) : Decidable (overlapsB a b) := by
  unfold overlapsB; infer_instance

/-- Whether a row is hit by the expired-pending-hold sweep:
`status = 'pending' AND hold_expires_at_utc IS NOT NULL AND hold_expires_at_utc <= now`. -/
def holdExpired (now : Int) (b : Booking) : Bool :=
  decide (b.status = BStatus.pending) &&
    match b.hold_expires_at_utc with
    | none => false
    | some h => decide (h ≤ now)

/-- `cleanupExpiredPendingHolds` (`db.js`): cancel every expired pending hold. -/
def cleanupExpiredPendingHolds (now : Int) (tbl : BookingsTable) : BookingsTable :=
  tbl.map fun b =>
    if holdExpired now b then { b with status := BStatus.cancelled } else b

/-- `cleanupExpiredHolds(db, businessId)`: with a business id, the sweep is
scoped to that business; with `null` it delegates to the global sweep. -/
def cleanupExpiredHolds (now : Int) (businessId : Option String) (tbl : BookingsTable) :
    BookingsTable :=
  match businessId with
  | none => cleanupExpiredPendingHolds now tbl
  | some biz =>
    tbl.map fun b =>
      if decide (b.business_id = biz) && holdExpired now b then
        { b with status := BStatus.cancelled }
      else b

/-- The sweep inside `createPendingHoldIfAvailableTx` (it additionally sets
`hold_expires_at_utc = NULL` on the cancelled rows). -/
def cancelExpiredInTx (now : Int) (biz : String) (tbl : BookingsTable) : BookingsTable :=
  tbl.map fun b =>
    if decide (b.business_id = biz) && holdExpired now b then
      { b with status := BStatus.cancelled, hold_expires_at_utc := none }
    else b

/-- The INSERT payload of `createPendingHoldIfAvailableTx` (fields with the
source's destructuring defaults already applied; `overlap_*` default to
`start_utc`/`end_utc` at the caller). -/
structure HoldPayload where
  pid : String
  business_id : String
  start_utc : Int
  end_utc : Int
  overlap_start_utc : Int
  overlap_end_utc : Int
  hold_expires_at_utc : Option Int
  customer_phone : Option String := none
  job_summary : Option String := none
deriving DecidableEq, Repr

/-- The row inserted by `createPendingHoldIfAvailableTx`: `status = 'pending'`,
`gcal_event_id = NULL`; `slot_key`/`idempotency_key` are not in its column
list, so they take the table defaults (`''` and `NULL`). -/
def mkPendingBooking (p : HoldPayload) : Booking :=
  { bid := p.pid
    business_id := p.business_id
    start_utc := p.start_utc
    end_utc := p.end_utc
    overlap_start_utc := p.overlap_start_utc
    overlap_end_utc := p.overlap_end_utc
    status := BStatus.pending
    hold_expires_at_utc := p.hold_expires_at_utc
    slot_key := ""
    idempotency_key := none
    customer_phone := p.customer_phone
    gcal_event_id := none
    failure_reason := none
    job_summary := p.job_summary }

inductive HoldResult
  | ok
  | notAvailable
  | errored
deriving DecidableEq, Repr

/-- `createPendingHoldIfAvailableTx`: inside `BEGIN IMMEDIATE`, sweep the
business's expired pending holds, SELECT one active overlapping row, ROLLBACK
with `{ok:false}` if found, otherwise INSERT the pending row and COMMIT.
A thrown error (missing id/business, or the PRIMARY KEY violation on
`bookings.id`) also rolls the whole transaction back, sweep included. -/
def createPendingHoldIfAvailableTx (now : Int) (p : HoldPayload) (tbl : BookingsTable) :
    HoldResult × BookingsTable :=
  if p.pid = "" || p.business_id = "" then (HoldResult.errored, tbl)
  else
    let t1 := cancelExpiredInTx now p.business_id tbl
    if t1.any fun b =>
        decide (b.business_id = p.business_id) && isActive now b &&
          decide (b.overlap_start_utc < p.overlap_end_utc) &&
          decide (b.overlap_end_utc > p.overlap_start_utc) then
      (HoldResult.notAvailable, tbl)
    else if t1.any fun b => decide (b.bid = p.pid) then
      (HoldResult.errored, tbl)
    else
      (HoldResult.ok, t1 ++ [mkPendingBooking p])

/-- The `fields` object passed to `updateBookingStatus` (outer `Option` =
whether the key is present; inner value = what the column is set to). -/
structure UpdateFields where
  hold_expires_at_utc : Option (Option Int) := none
  gcal_event_id : Option (Option String) := none
  failure_reason : Option (Option String) := none
  job_summary : Option (Option String) := none
deriving DecidableEq, Repr

def applyFields (f : UpdateFields) (b : Booking) : Booking :=
  { b with
    hold_expires_at_utc := f.hold_expires_at_utc.getD b.hold_expires_at_utc
    gcal_event_id := f.gcal_event_id.getD b.gcal_event_id
    failure_reason := f.failure_reason.getD b.failure_reason
    job_summary := f.job_summary.getD b.job_summary }

inductive DbErr
  | bookingNotFound (bookingId : String)
  | invalidStatusTransition (fromStatus toStatus : BStatus)
deriving DecidableEq, Repr

/-- `getBookingById`: `SELECT * FROM bookings WHERE id = ?`. -/
def getBookingById (tbl : BookingsTable) (bookingId : String) : Option Booking :=
  tbl.find? fun b => decide (b.bid = bookingId)

/-- `updateBookingStatus`: read the row, check `BOOKING_TRANSITIONS`, then a
single UPDATE of status plus the given fields.  Both error cases throw before
the UPDATE, so they leave the table untouched. -/
def updateBookingStatus (tbl : BookingsTable) (bookingId : String) (newStatus : BStatus)
    (fields : UpdateFields) : Except DbErr BookingsTable :=
  match getBookingById tbl bookingId with
  | none => Except.error (DbErr.bookingNotFound bookingId)
  | some booking =>
    if allowedTransition booking.status newStatus then
      Except.ok (tbl.map fun b =>
        if b.bid = bookingId then applyFields fields { b with status := newStatus } else b)
    else
      Except.error (DbErr.invalidStatusTransition booking.status newStatus)

/-- `confirmBooking`: `updateBookingStatus(id, 'confirmed', {hold_expires_at_utc:
null, gcal_event_id: gcalEventId || null, failure_reason: null})`. -/
def confirmBooking (tbl : BookingsTable) (bookingId : String) (gcalEventId : Option String) :
    Except DbErr BookingsTable :=
  updateBookingStatus tbl bookingId BStatus.confirmed
    { hold_expires_at_utc := some none
      gcal_event_id := some (jsOrNull gcalEventId)
      failure_reason := some none }

/-- `failBooking`: summary `"FAILED: <reason>"` (or `"FAILED"` for a falsy
reason), then `updateBookingStatus(id, 'failed', ...)`. -/
def failBooking (tbl : BookingsTable) (bookingId : String) (reason : Option String) :
    Except DbErr BookingsTable :=
  let summary := match jsOrNull reason with
    | some r => "FAILED: " ++ r
    | none => "FAILED"
  updateBookingStatus tbl bookingId BStatus.failed
    { hold_expires_at_utc := some none
      failure_reason := some (jsOrNull reason)
      job_summary := some (some summary) }

/-- `cancelBooking`: `updateBookingStatus(id, 'cancelled', {})`. -/
def cancelBooking (tbl : BookingsTable) (bookingId : String) : Except DbErr BookingsTable :=
  updateBookingStatus tbl bookingId BStatus.cancelled {}

/-- One invocation of a reservation-ledger operation, with the wall-clock
`now` it observes (claim C1 quantifies over "any sequential order"). -/
inductive LedgerOp
  | createHold (now : Int) (p : HoldPayload)
  | confirm (bookingId : String) (gcalEventId : Option String)
  | failOp (bookingId : String) (reason : Option String)
  | cancel (bookingId : String)
  | cleanup (now : Int) (businessId : Option String)

/-- The table after running one operation; a thrown error (invalid transition,
missing booking, unavailable slot) leaves the table unchanged, exactly as the
source's throw-before-write / ROLLBACK does. -/
def stepLedger (tbl : BookingsTable) : LedgerOp → BookingsTable
  | .createHold now p => (createPendingHoldIfAvailableTx now p tbl).2
  | .confirm bookingId g =>
      match confirmBooking tbl bookingId g with
      | Except.ok t => t
      | Except.error _ => tbl
  | .failOp bookingId r =>
      match failBooking tbl bookingId r with
      | Except.ok t => t
      | Except.error _ => tbl
  | .cancel bookingId =>
      match cancelBooking tbl bookingId with
      | Except.ok t => t
      | Except.error _ => tbl
  | .cleanup now biz => cleanupExpiredHolds now biz tbl

/-- Tables reachable from the empty table by any sequence of ledger
operations. -/
inductive Reachable : BookingsTable → Prop
  | base : Reachable []
  | next {tbl : BookingsTable} (h : Reachable tbl) (op : LedgerOp) : Reachable (stepLedger tbl op)

/-- The inductive invariant: booking ids are unique, and of any two distinct
same-business rows with overlapping windows at least one is terminal. -/
def SepInv (tbl : BookingsTable) : Prop :=
  (tbl.map Booking.bid).Nodup ∧
    ∀ a ∈ tbl, ∀ b ∈ tbl, a.bid ≠ b.bid → a.business_id = b.business_id →
      overlapsB a b → a.status.isTerminal ∨ b.status.isTerminal

end Ledger

/-! ## Booking orchestrator

Source: `src/bookings/createBooking.js` (the version with the time-window
policy, the idempotency lookup and the two-attempt insert loop).  The data
layer's `getBookingByIdempotencyKey` and `createPendingBookingLock` are
referenced by the flow but their implementation is not among the source files;
they are modelled from the spec (marked below).  External collaborators
(timezone database, OAuth client, calendar API, random booking id) enter as
fields of `FlowEnv`; the flow itself is the source's control flow verbatim.
-/

namespace Flow

/-- The `businesses` row fields the flow reads. -/
structure BusinessRow where
  rid : String
  timezone : Option String := none
  working_hours_start : Option String := none
  working_hours_end : Option String := none
  working_hours_json : BH.WhJson := BH.WhJson.absent
  default_duration_min : Option Int := none
  buffer_before_min : Option Int := none
  lead_time_min : Option Int := none
  max_days_ahead : Option Int := none

/-- The `business || {}` fallback object. -/
def emptyBusinessRow : BusinessRow := { rid := "" }

/-- The object returned by `getEffectiveBusinessProfile` (`db.js`): timezone
and working hours are always populated (profile row or defaults).  It carries
no `lead_time_min`/`max_days_ahead` keys — the fields are kept as `Option`
because `validateBookingTimeWindow` reads them (`none` in the real
construction, so the business row's values win there). -/
structure EffProfile where
  timezone : String
  working_hours : BH.ParsedWh
  slot_duration_min : Int
  buffer_min : Int
  lead_time_min : Option Int := none
  max_days_ahead : Option Int := none

/-- Output of `normalizeInput` (aliases already collapsed; absent strings are
`""`, exactly as `String(x)` / `""` in the source). -/
structure FlowInput where
  businessId : String
  startLocal : String
  timezone : String
  durationMinsRaw : Option Int := none
  bufferMinsRaw : Option Int := none
  service : Option String := none
  emergencyFlag : Bool := false
  customerName : Option String := none
  customerPhone : Option String := none
  customerEmail : Option String := none
  customerAddress : Option String := none
  notes : Option String := none

/-- Output of `validateAndBuildSchedule` on success (UTC minutes). -/
structure Schedule where
  durationMins : Int
  startUtcIso : Int
  endUtcIso : Int
  holdStartUtcIso : Int
  holdEndUtcIso : Int
deriving DecidableEq, Repr

/-- `validateAndBuildSchedule`: collect the error list, then build the
schedule.  `startParse` is `DateTime.fromISO(startLocal, {zone: timezone})`
(`none` = invalid). -/
def validateAndBuildSchedule (input : FlowInput) (business : BusinessRow)
    (businessProfile : Option EffProfile) (startParse : Option Int) :
    Except (List String) Schedule :=
  let errors1 := (if input.businessId = "" then ["Missing businessId"] else []) ++
    (if input.startLocal = "" then ["Missing startLocal"] else []) ++
    (if input.timezone = "" then ["Missing timezone"] else [])
  let durationMins : Int := match input.durationMinsRaw with
    | some d => d
    | none => jsOrInt (businessProfile.map (·.slot_duration_min))
        (jsOrInt business.default_duration_min 60)
  let errors2 := errors1 ++
    (if durationMins ≤ 0 ∨ durationMins > 8 * 60 then ["Invalid durationMins"] else [])
  let defaultBuffer :=
    ((businessProfile.map (·.buffer_min)).orElse fun _ => business.buffer_before_min).getD 0
  let bufferMins := input.bufferMinsRaw.getD defaultBuffer
  let errors3 := errors2 ++
    (if bufferMins < 0 ∨ bufferMins > 24 * 60 then ["Invalid bufferMins"] else [])
  let errors4 := errors3 ++ (if startParse.isNone then ["Invalid startLocal/timezone"] else [])
  if errors4.isEmpty then
    let s := startParse.getD 0
    Except.ok
      { durationMins := durationMins
        startUtcIso := s
        endUtcIso := s + durationMins
        holdStartUtcIso := s - bufferMins
        holdEndUtcIso := s + durationMins + bufferMins }
  else Except.error errors4

/-- `normalizePhoneDigits`: `String(phone || "").replace(/\D/g, "")`. -/
def normalizePhoneDigits (phone : Option String) : String :=
  String.mk ((phone.getD "").toList.filter Char.isDigit)

/-- `buildBookingIdempotencyKey`: the SHA-256-derived key over
`"{businessId}|{startUtcIso}|{durationMins}|{phoneDigits}"`.  The hash (Node
`crypto`, outside the repository) is modelled as the identity on its key
input, i.e. as an injective digest. -/
def buildBookingIdempotencyKey (businessId : String) (startUtcIso : Int)
    (durationMins : Int) (phoneDigits : String) : String :=
  businessId ++ "|" ++ toString startUtcIso ++ "|" ++ toString durationMins ++ "|" ++ phoneDigits

/-- Luxon's `endOf("day")` at minute granularity: the last minute of the local
day containing `m` (local minutes on a uniform local timeline). -/
def endOfDayMin (m : Int) : Int :=
  (m.fdiv 1440 + 1) * 1440 - 1

/-- `validateBookingTimeWindow`: lead time and horizon in the policy timezone.
`startLocalBiz` is `DateTime.fromISO(input.startLocal, {zone: policyTz})` and
`nowLocalBiz` is `now` in the same zone, both as local minutes (`none` =
invalid parse, which skips the validation as in the source). -/
def validateBookingTimeWindow (business : BusinessRow) (businessProfile : Option EffProfile)
    (startLocalBiz : Option Int) (nowLocalBiz : Int) : Bool × List String :=
  let leadTimeMin : Int := max 0
    (((businessProfile.bind (·.lead_time_min)).orElse fun _ => business.lead_time_min).getD 60)
  let maxDaysAhead : Int := max 0
    (((businessProfile.bind (·.max_days_ahead)).orElse fun _ => business.max_days_ahead).getD 14)
  match startLocalBiz with
  | none => (true, [])
  | some requestedStart =>
    let earliestAllowed := nowLocalBiz + leadTimeMin
    let latestAllowed := endOfDayMin (nowLocalBiz + maxDaysAhead * 1440)
    let details := (if requestedStart < earliestAllowed then ["START_TOO_SOON"] else []) ++
      (if requestedStart > latestAllowed then ["START_TOO_FAR"] else [])
    (details.isEmpty, details)

/-- The partial-unique-index predicate of migration
`012_bookings_idempotency_key_unique.sql`: `status = 'confirmed' OR
(status = 'pending' AND hold_expires_at_utc IS NOT NULL AND
hold_expires_at_utc > now)`. -/
def activeIdxUnique (now : Int) (b : Ledger.Booking) : Bool :=
  decide (b.status = Ledger.BStatus.confirmed) ||
    (decide (b.status = Ledger.BStatus.pending) &&
      match b.hold_expires_at_utc with
      | none => false
      | some h => decide (now < h))

/-- Modelled from the spec: `getBookingByIdempotencyKey(businessId, key)` is
referenced by the orchestrator but missing from the source files.  Per spec
§4.5/§4.6 it returns the business's booking carrying that idempotency key and
satisfying the active predicate of the partial unique index ("Else proceed
(no prior active row)"). -/
def getBookingByIdempotencyKey (now : Int) (tbl : Ledger.BookingsTable)
    (businessId key : String) : Option Ledger.Booking :=
  tbl.find? fun b =>
    decide (b.business_id = businessId) && decide (b.idempotency_key = some key) &&
      activeIdxUnique now b

/-- The INSERT payload of `createPendingBookingLock` (the fields the flow
passes that the bookings row stores). -/
structure LockPayload where
  pid : String
  business_id : String
  start_utc : Int
  end_utc : Int
  overlap_start_utc : Int
  overlap_end_utc : Int
  hold_expires_at_utc : Option Int
  customer_phone : Option String := none
  slot_key : String
  idempotency_key : String
  job_summary : Option String := none
deriving DecidableEq, Repr

inductive LockErr
  | idemConstraint
  | slotConstraint
  | pkConstraint
  | otherError
deriving DecidableEq, Repr

def mkLockBooking (p : LockPayload) : Ledger.Booking :=
  { bid := p.pid
    business_id := p.business_id
    start_utc := p.start_utc
    end_utc := p.end_utc
    overlap_start_utc := p.overlap_start_utc
    overlap_end_utc := p.overlap_end_utc
    status := Ledger.BStatus.pending
    hold_expires_at_utc := p.hold_expires_at_utc
    slot_key := p.slot_key
    idempotency_key := some p.idempotency_key
    customer_phone := p.customer_phone
    gcal_event_id := none
    failure_reason := none
    job_summary := p.job_summary }

/-- Modelled from the spec: `createPendingBookingLock` is referenced by the
orchestrator but missing from the source files.  Per spec §4.5/§6 it inserts
the pending row, with the partial unique indexes on `idempotency_key` and
`slot_key` (and the primary key on `id`) raising `SQLITE_CONSTRAINT`, whose
message the orchestrator then classifies. -/
def createPendingBookingLock (now : Int) (tbl : Ledger.BookingsTable) (p : LockPayload) :
    Except LockErr Ledger.BookingsTable :=
  if tbl.any fun b => activeIdxUnique now b && decide (b.idempotency_key = some p.idempotency_key) then
    Except.error LockErr.idemConstraint
  else if tbl.any fun b => activeIdxUnique now b && decide (b.slot_key = p.slot_key) then
    Except.error LockErr.slotConstraint
  else if tbl.any fun b => decide (b.bid = p.pid) then
    Except.error LockErr.pkConstraint
  else
    Except.ok (tbl ++ [mkLockBooking p])

/-- Parse state of an event's `start.dateTime` / `end.dateTime` field. -/
inductive DtField
  | absent
  | invalid
  | val (t : Int)
deriving DecidableEq, Repr

/-- A calendar event returned by the idempotency lookup
(`calendar.events.list(... privateExtendedProperty ...)`); dates are day
indexes (`toISODate`). -/
structure GEvent where
  eid : String
  idemKey : Option String
  startDT : DtField := DtField.absent
  endDT : DtField := DtField.absent
  startDate : Option Int := none
  endDate : Option Int := none
deriving DecidableEq, Repr

/-- `toISODate` of a UTC instant in minutes: its day index. -/
def isoDate (t : Int) : Int :=
  t.fdiv 1440

/-- `validateFoundEventMatchesSchedule`: the recovered event must carry the
expected idempotency key and sit within 2 minutes of the expected window
(or, for all-day events, on the exact expected dates). -/
def validateFoundEventMatchesSchedule (event : GEvent) (idempotencyKey : String)
    (schedule : Schedule) : Bool :=
  if event.idemKey ≠ some idempotencyKey then false
  else if event.startDT ≠ DtField.absent || event.endDT ≠ DtField.absent then
    match event.startDT, event.endDT with
    | DtField.val fs, DtField.val fe =>
      decide ((fs - schedule.startUtcIso).natAbs ≤ 2 ∧ (fe - schedule.endUtcIso).natAbs ≤ 2)
    | _, _ => false
  else if event.startDate.isSome || event.endDate.isSome then
    decide (event.startDate = some (isoDate schedule.startUtcIso) ∧
      event.endDate = some (isoDate schedule.endUtcIso))
  else false

/-- Outcome of one `calendar.events.insert` attempt; `transient` is
`isRetryableGoogleError` applied to the thrown error. -/
inductive InsertOutcome
  | okIns (eventId : String)
  | errIns (transient : Bool)
deriving DecidableEq, Repr

/-- The external collaborators and request data of one `createBookingFlow`
invocation.  `startParseInput`/`startParseBiz` are `startLocal` parsed in the
request timezone (as a UTC instant) and in the policy timezone (as local
minutes); `zones` is the timezone database used by `isOutsideBusinessHours`;
`ins1`/`ins2` are the outcomes the two insert attempts would have;
`lookupEvent` is the first item the idempotency event search would return
(`none` also covers a failed or empty search). -/
structure FlowEnv where
  input : FlowInput
  business : Option BusinessRow
  profile : Option EffProfile
  table : Ledger.BookingsTable
  nowUtc : Int
  nowLocalBiz : Int
  startParseInput : Option Int
  startParseBiz : Option Int
  zones : String → Option (Int → Int)
  tokensOk : Bool
  freebusyResult : Except Unit (List (Int × Int))
  ins1 : InsertOutcome
  ins2 : InsertOutcome
  lookupEvent : Option GEvent
  newBookingId : String
  holdExpiresUtc : Int

/-- The table after the flow's `data.cleanupExpiredHolds(input.businessId)`. -/
def cleanedTable (env : FlowEnv) : Ledger.BookingsTable :=
  Ledger.cleanupExpiredHolds env.nowUtc (some env.input.businessId) env.table

/-- The idempotency key the flow computes for its request. -/
def flowIdemKey (env : FlowEnv) (schedule : Schedule) : String :=
  buildBookingIdempotencyKey env.input.businessId schedule.startUtcIso schedule.durationMins
    (normalizePhoneDigits env.input.customerPhone)

/-- The profile object the flow hands to `isOutsideBusinessHours`. -/
def flowBhProfile (business : BusinessRow)
    (businessProfile : Option EffProfile) : BH.BHProfile :=
  { timezone := jsOrStr (businessProfile.map (·.timezone)) business.timezone
    working_hours_start := business.working_hours_start
    working_hours_end := business.working_hours_end
    working_hours_json := match businessProfile with
      | some pr => BH.WhJson.parsed pr.working_hours
      | none => business.working_hours_json }

/-- `isEmergency = isEmergencyService || isAfterHours || input flag`. -/
def flowIsEmergency (env : FlowEnv) (business : BusinessRow)
    (businessProfile : Option EffProfile) (schedule : Schedule) : Bool :=
  ((env.input.service.getD "").toLower = "emergency") ||
    BH.isOutsideBusinessHours env.zones (some schedule.startUtcIso)
      (flowBhProfile business businessProfile) ||
    env.input.emergencyFlag

/-- The payload of the flow's `data.createPendingBookingLock` call. -/
def flowLockPayload (env : FlowEnv) (business : BusinessRow)
    (businessProfile : Option EffProfile) (schedule : Schedule) : LockPayload :=
  let serviceName := (jsOrStr env.input.service (some "HVAC")).getD "HVAC"
  { pid := env.newBookingId
    business_id := env.input.businessId
    start_utc := schedule.startUtcIso
    end_utc := schedule.endUtcIso
    overlap_start_utc := schedule.holdStartUtcIso
    overlap_end_utc := schedule.holdEndUtcIso
    hold_expires_at_utc := some env.holdExpiresUtc
    customer_phone := jsOrNull env.input.customerPhone
    slot_key := env.input.businessId ++ ":" ++ toString schedule.startUtcIso
    idempotency_key := flowIdemKey env schedule
    job_summary := some (if flowIsEmergency env business businessProfile schedule then
      "[EMERGENCY] " ++ serviceName else serviceName) }

/-- A state-changing data-layer call the flow performed (in order). -/
inductive FlowAction
  | cleanupHolds
  | lockInsert (bookingId : String)
  | didConfirm (bookingId : String) (gcalEventId : Option String)
  | didFail (bookingId : String) (reason : String)
deriving DecidableEq, Repr

/-- The `{status, body}` the flow returns, plus the bookings table it leaves
behind and the state-changing calls it made (the asynchronous fire-and-forget
SMS/emergency dispatch touches no bookings row and is not modelled). -/
structure FlowResult where
  status : Nat
  ok : Bool
  error : Option String := none
  bodyStatus : Option String := none
  bookingId : Option String := none
  gcalEventId : Option String := none
  isEmergency : Option Bool := none
  details : List String := []
  actions : List FlowAction := []
  table : Ledger.BookingsTable
deriving DecidableEq, Repr

/-- The 200 confirmation path: `data.confirmBooking(bookingId, eventId)` then
the success body. -/
def confirmFinish (t2 : Ledger.BookingsTable) (bookingId : String) (gcal : Option String)
    (isEmergency : Bool) (acts : List FlowAction) : FlowResult :=
  let t3 := match Ledger.confirmBooking t2 bookingId gcal with
    | Except.ok t => t
    | Except.error _ => t2
  { status := 200
    ok := true
    bodyStatus := some "confirmed"
    bookingId := some bookingId
    gcalEventId := gcal
    isEmergency := some isEmergency
    actions := acts ++ [FlowAction.didConfirm bookingId gcal]
    table := t3 }

/-- The insert-exhaustion path:
`data.failBooking(bookingId, "GOOGLE_EVENTS_INSERT_FAILED")` then 500. -/
def failFinish (t2 : Ledger.BookingsTable) (bookingId : String)
    (acts : List FlowAction) : FlowResult :=
  let t3 := match Ledger.failBooking t2 bookingId (some "GOOGLE_EVENTS_INSERT_FAILED") with
    | Except.ok t => t
    | Except.error _ => t2
  { status := 500
    ok := false
    error := some "Internal error"
    actions := acts ++ [FlowAction.didFail bookingId "GOOGLE_EVENTS_INSERT_FAILED"]
    table := t3 }

/-- The recovery lookup after a transient first insert failure: the first
listed event, kept only if its id is truthy and
`validateFoundEventMatchesSchedule` accepts it. -/
def recoverEvent (env : FlowEnv) (idempotencyKey : String) (schedule : Schedule) :
    Option String :=
  match env.lookupEvent with
  | none => none
  | some ev =>
    if ev.eid ≠ "" && validateFoundEventMatchesSchedule ev idempotencyKey schedule then
      some ev.eid
    else none

/-- The two-attempt insert loop (`for insertAttempt in 1..2`), unrolled.  With
a non-transient first failure the loop exhausts immediately (the idempotency
key is always a non-empty string); with a transient one it runs the event
lookup, confirms on a validated hit, and otherwise makes the second attempt,
whose failure exhausts the loop. -/
def runInsertPhase (env : FlowEnv) (schedule : Schedule) (idempotencyKey : String)
    (isEmergency : Bool) (t2 : Ledger.BookingsTable) (bookingId : String) : FlowResult :=
  let acts := [FlowAction.cleanupHolds, FlowAction.lockInsert bookingId]
  match env.ins1 with
  | InsertOutcome.okIns eventId =>
      confirmFinish t2 bookingId (jsOrNull (some eventId)) isEmergency acts
  | InsertOutcome.errIns transient1 =>
    if !transient1 then failFinish t2 bookingId acts
    else
      match recoverEvent env idempotencyKey schedule with
      | some existingEventId =>
          confirmFinish t2 bookingId (jsOrNull (some existingEventId)) isEmergency acts
      | none =>
        match env.ins2 with
        | InsertOutcome.okIns eventId =>
            confirmFinish t2 bookingId (jsOrNull (some eventId)) isEmergency acts
        | InsertOutcome.errIns _ => failFinish t2 bookingId acts

/-- The catch-branch of the hold transaction: classify the constraint, replay
the idempotency lookup on an idempotency-key violation, else 409 / 500.  The
transaction rolled back, so the table stays at `t1`. -/
def lockErrorResponse (env : FlowEnv) (t1 : Ledger.BookingsTable)
    (idempotencyKey : String) : LockErr → FlowResult
  | LockErr.idemConstraint =>
    match getBookingByIdempotencyKey env.nowUtc t1 env.input.businessId idempotencyKey with
    | some existingOnConflict =>
      if existingOnConflict.status = Ledger.BStatus.confirmed then
        { status := 200, ok := true, bodyStatus := some "confirmed"
          bookingId := some existingOnConflict.bid
          actions := [FlowAction.cleanupHolds], table := t1 }
      else if existingOnConflict.status = Ledger.BStatus.pending then
        { status := 202, ok := true, bodyStatus := some "pending"
          bookingId := some existingOnConflict.bid
          actions := [FlowAction.cleanupHolds], table := t1 }
      else
        { status := 409, ok := false, error := some "SLOT_ALREADY_BOOKED"
          actions := [FlowAction.cleanupHolds], table := t1 }
    | none =>
      { status := 409, ok := false, error := some "SLOT_ALREADY_BOOKED"
        actions := [FlowAction.cleanupHolds], table := t1 }
  | LockErr.slotConstraint =>
      { status := 409, ok := false, error := some "SLOT_ALREADY_BOOKED"
        actions := [FlowAction.cleanupHolds], table := t1 }
  | LockErr.pkConstraint =>
      { status := 409, ok := false, error := some "SLOT_ALREADY_BOOKED"
        actions := [FlowAction.cleanupHolds], table := t1 }
  | LockErr.otherError =>
      { status := 500, ok := false, error := some "Internal error"
        actions := [FlowAction.cleanupHolds], table := t1 }

/-- `createBookingFlow`, phase by phase in source order: business lookup,
schedule validation, time-window policy, idempotency replay, emergency
classification, credential preflight, freebusy revalidation, hold
transaction, insert loop, confirmation. -/
def createBookingFlow (env : FlowEnv) : FlowResult :=
  let input := env.input
  if input.businessId ≠ "" && env.business.isNone then
    { status := 404, ok := false, error := some "Business not found", table := env.table }
  else
    let business := env.business.getD emptyBusinessRow
    let businessProfile := if input.businessId = "" then none else env.profile
    match validateAndBuildSchedule input business businessProfile env.startParseInput with
    | Except.error errs =>
      { status := 400, ok := false, error := some (String.intercalate "; " errs)
        table := env.table }
    | Except.ok schedule =>
      let w := validateBookingTimeWindow business businessProfile env.startParseBiz
        env.nowLocalBiz
      if !w.1 then
        { status := 400, ok := false, error := some "INVALID_BOOKING_TIME_WINDOW"
          details := w.2, table := env.table }
      else
        let idempotencyKey := flowIdemKey env schedule
        let t1 := cleanedTable env
        match getBookingByIdempotencyKey env.nowUtc t1 input.businessId idempotencyKey with
        | some existingBooking =>
          if existingBooking.status = Ledger.BStatus.confirmed then
            { status := 200, ok := true, bodyStatus := some "confirmed"
              bookingId := some existingBooking.bid
              actions := [FlowAction.cleanupHolds], table := t1 }
          else
            { status := 202, ok := true, bodyStatus := some "pending"
              bookingId := some existingBooking.bid
              actions := [FlowAction.cleanupHolds], table := t1 }
        | none =>
          let isEmergency := flowIsEmergency env business businessProfile schedule
          if !env.tokensOk then
            { status := 403, ok := false, error := some "Google Calendar is not connected"
              actions := [FlowAction.cleanupHolds], table := t1 }
          else
            match env.freebusyResult with
            | Except.error _ =>
              { status := 500, ok := false, error := some "Internal error"
                actions := [FlowAction.cleanupHolds], table := t1 }
            | Except.ok busyRanges =>
              if !busyRanges.isEmpty then
                { status := 409, ok := false, error := some "SLOT_ALREADY_BOOKED"
                  actions := [FlowAction.cleanupHolds], table := t1 }
              else
                match createPendingBookingLock env.nowUtc t1
                    (flowLockPayload env business businessProfile schedule) with
                | Except.error lockErr => lockErrorResponse env t1 idempotencyKey lockErr
                | Except.ok t2 =>
                  runInsertPhase env schedule idempotencyKey isEmergency t2 env.newBookingId

/-- A concrete business row for witness scenarios (Mon–Fri 08:00–17:00,
60-minute default duration, 60-minute lead time, 14-day horizon). -/
def sampleBusiness : BusinessRow :=
  { rid := "biz1"
    timezone := some "America/Chicago"
    working_hours_start := some "08:00"
    working_hours_end := some "17:00"
    default_duration_min := some 60
    lead_time_min := some 60
    max_days_ahead := some 14 }

/-- A concrete effective profile for witness scenarios. -/
def sampleProfile : EffProfile :=
  { timezone := "America/Chicago"
    working_hours := {}
    slot_duration_min := 60
    buffer_min := 15 }

/-- A concrete request body for witness scenarios. -/
def sampleInput : FlowInput :=
  { businessId := "biz1"
    startLocal := "2026-01-12T09:00:00"
    timezone := "America/Chicago"
    durationMinsRaw := some 60
    customerPhone := some "+15550001111" }

/-- The schedule `validateAndBuildSchedule` derives from `sampleInput`. -/
def sampleSchedule : Schedule :=
  { durationMins := 60
    startUtcIso := 1002000
    endUtcIso := 1002060
    holdStartUtcIso := 1001985
    holdEndUtcIso := 1002075 }

/-- A concrete orchestration environment for witness scenarios: the request
is in-window (local start 502000 against now 500000 with 60-minute lead and
14-day horizon), credentials are present, freebusy is empty and both insert
attempts would succeed. -/
def sampleEnv : FlowEnv :=
  { input := sampleInput
    business := some sampleBusiness
    profile := some sampleProfile
    table := []
    nowUtc := 1000000
    nowLocalBiz := 500000
    startParseInput := some 1002000
    startParseBiz := some 502000
    zones := fun _ => some fun t => t - 360
    tokensOk := true
    freebusyResult := Except.ok []
    ins1 := InsertOutcome.okIns "gcal-123"
    ins2 := InsertOutcome.okIns "gcal-123"
    lookupEvent := none
    newBookingId := "bk-1"
    holdExpiresUtc := 1000005 }

/-- A calendar event carrying `sampleEnv`'s idempotency key within the
2-minute tolerance of `sampleSchedule`. -/
def sampleEvent : GEvent :=
  { eid := "ev9"
    idemKey := some "biz1|1002000|60|15550001111"
    startDT := DtField.val 1002001
    endDT := DtField.val 1002061 }

/-- An existing confirmed booking row carrying `sampleEnv`'s idempotency
key. -/
def sampleExisting : Ledger.Booking :=
  { bid := "old1"
    business_id := "biz1"
    start_utc := 1002000
    end_utc := 1002060
    overlap_start_utc := 1001985
    overlap_end_utc := 1002075
    status := Ledger.BStatus.confirmed
    hold_expires_at_utc := none
    slot_key := "biz1:1002000"
    idempotency_key := some "biz1|1002000|60|15550001111"
    customer_phone := some "+15550001111"
    gcal_event_id := some "gcal-old"
    failure_reason := none
    job_summary := none }

end Flow

/-! ## Theorems -/

/-- Claim C8 (amended): when the worker executes a due pending RetryTask and
the executor throws, the attempt count becomes prior + 1; if that reaches
`max_attempts` (with the column value 0 substituted by the default 5, see the
counterexample) the task becomes terminal `failed`, otherwise it stays
`pending` with `next_attempt_at_utc = now + min(30·2^(attemptCount−1), 1800)`
seconds; on success the task becomes `succeeded`; and `listDueRetries` only
ever returns `pending` tasks. -/
theorem claim_C8 (now : Int) (t : Retry.RetryTask) (msg : String)
    (tasks : List Retry.RetryTask) (limit : Nat) :
    (Retry.runRetryTaskOnce now t (Retry.ExecOutcome.failure msg)).attempt_count =
        t.attempt_count + 1 ∧
    (t.attempt_count + 1 ≥ (if t.max_attempts = 0 then 5 else t.max_attempts) →
      (Retry.runRetryTaskOnce now t (Retry.ExecOutcome.failure msg)).status =
        Retry.RStatus.failed) ∧
    (t.attempt_count + 1 < (if t.max_attempts = 0 then 5 else t.max_attempts) →
      (Retry.runRetryTaskOnce now t (Retry.ExecOutcome.failure msg)).status =
          Retry.RStatus.pending ∧
      (Retry.runRetryTaskOnce now t (Retry.ExecOutcome.failure msg)).next_attempt_at_utc =
          now + ((min (30 * 2 ^ t.attempt_count) 1800 : Nat) : Int)) ∧
    (Retry.runRetryTaskOnce now t Retry.ExecOutcome.success).status =
        Retry.RStatus.succeeded ∧
    ∀ u ∈ Retry.listDueRetries now tasks limit, u.status = Retry.RStatus.pending := by
  refine ⟨?_, ?_, ?_, ?_, ?_⟩
  · simp only [Retry.runRetryTaskOnce, Retry.markRetryAttempt]
    split <;> split <;> rfl
  · intro h
    simp only [Retry.runRetryTaskOnce, Retry.markRetryAttempt]
    split
    next hmz =>
      rw [if_pos (by rw [if_pos hmz] at h; exact h)]
    next hmz =>
      rw [if_pos (by rw [if_neg hmz] at h; exact h)]
  · intro h
    simp only [Retry.runRetryTaskOnce, Retry.markRetryAttempt]
    split
    next hmz =>
      rw [if_neg (Nat.not_le.mpr (by rw [if_pos hmz] at h; exact h))]
      refine ⟨rfl, ?_⟩
      simp [Retry.computeDelaySeconds]
    next hmz =>
      rw [if_neg (Nat.not_le.mpr (by rw [if_neg hmz] at h; exact h))]
      refine ⟨rfl, ?_⟩
      simp [Retry.computeDelaySeconds]
  · rfl
  · intro u hu
    have hu1 : u ∈ (tasks.filter fun t =>
        decide (t.status = Retry.RStatus.pending) &&
          decide (t.next_attempt_at_utc ≤ now)).mergeSort
        (fun a b =>
          decide (a.next_attempt_at_utc < b.next_attempt_at_utc) ||
            (decide (a.next_attempt_at_utc = b.next_attempt_at_utc) &&
              decide (a.created_at_utc ≤ b.created_at_utc))) :=
      List.mem_of_mem_take hu
    have hu2 := (List.mergeSort_perm _ _).mem_iff.mp hu1
    have := List.of_mem_filter hu2
    simp only [Bool.and_eq_true, decide_eq_true_eq] at this
    exact this.1

/-- Claim C8, counterexample to the claim as stated: a RetryTask whose
`max_attempts` column is 0.  The new attempt count 1 is ≥ 0 = max_attempts,
so the claim demands terminal `failed`, but the worker substitutes the
default 5 (`Number(retry.max_attempts || 5)`) and leaves the task `pending`. -/
theorem claim_C8_counterexample :
    (Retry.runRetryTaskOnce 1000
        { rid := "r1", attempt_count := 0, max_attempts := 0, next_attempt_at_utc := 0,
          last_error := none, status := Retry.RStatus.pending, created_at_utc := 0 }
        (Retry.ExecOutcome.failure "boom")).attempt_count ≥ 0 ∧
    (Retry.runRetryTaskOnce 1000
        { rid := "r1", attempt_count := 0, max_attempts := 0, next_attempt_at_utc := 0,
          last_error := none, status := Retry.RStatus.pending, created_at_utc := 0 }
        (Retry.ExecOutcome.failure "boom")).status ≠ Retry.RStatus.failed := by
  constructor
  · exact Nat.zero_le _
  · decide

/-- Claim C8 witness: the amended theorem applied at concrete tasks — a
max_attempts-5 row failing its second attempt (pending with 60-second
backoff), a max_attempts-0 row failing its first attempt (effective
threshold 5, so pending, not failed), a max_attempts-5 row failing its
fifth attempt (terminal failed), and a task list whose only entry is
succeeded. -/
theorem claim_C8_witness :
    ((Retry.runRetryTaskOnce 1000
        { rid := "r2", attempt_count := 1, max_attempts := 5, next_attempt_at_utc := 900,
          last_error := none, status := Retry.RStatus.pending, created_at_utc := 0 }
        (Retry.ExecOutcome.failure "timeout")).attempt_count = 2 ∧
      (Retry.runRetryTaskOnce 1000
        { rid := "r2", attempt_count := 1, max_attempts := 5, next_attempt_at_utc := 900,
          last_error := none, status := Retry.RStatus.pending, created_at_utc := 0 }
        (Retry.ExecOutcome.failure "timeout")).status = Retry.RStatus.pending ∧
      (Retry.runRetryTaskOnce 1000
        { rid := "r2", attempt_count := 1, max_attempts := 5, next_attempt_at_utc := 900,
          last_error := none, status := Retry.RStatus.pending, created_at_utc := 0 }
        (Retry.ExecOutcome.failure "timeout")).next_attempt_at_utc =
        1000 + ((min (30 * 2 ^ 1) 1800 : Nat) : Int)) ∧
    ((Retry.runRetryTaskOnce 2000
        { rid := "r0", attempt_count := 0, max_attempts := 0, next_attempt_at_utc := 900,
          last_error := none, status := Retry.RStatus.pending, created_at_utc := 0 }
        (Retry.ExecOutcome.failure "boom")).status = Retry.RStatus.pending ∧
      (Retry.runRetryTaskOnce 2000
        { rid := "r0", attempt_count := 0, max_attempts := 0, next_attempt_at_utc := 900,
          last_error := none, status := Retry.RStatus.pending, created_at_utc := 0 }
        (Retry.ExecOutcome.failure "boom")).next_attempt_at_utc =
        2000 + ((min (30 * 2 ^ 0) 1800 : Nat) : Int)) ∧
    (Retry.runRetryTaskOnce 3000
        { rid := "r4", attempt_count := 4, max_attempts := 5, next_attempt_at_utc := 900,
          last_error := none, status := Retry.RStatus.pending, created_at_utc := 0 }
        (Retry.ExecOutcome.failure "down")).status = Retry.RStatus.failed ∧
    ∀ u ∈ Retry.listDueRetries 1000
        [{ rid := "r3", attempt_count := 0, max_attempts := 5, next_attempt_at_utc := 500,
           last_error := none, status := Retry.RStatus.succeeded, created_at_utc := 0 }] 20,
      u.status = Retry.RStatus.pending := by
  obtain ⟨h1, -, h3, -, h5⟩ := claim_C8 1000
    { rid := "r2", attempt_count := 1, max_attempts := 5, next_attempt_at_utc := 900,
      last_error := none, status := Retry.RStatus.pending, created_at_utc := 0 }
    "timeout"
    [{ rid := "r3", attempt_count := 0, max_attempts := 5, next_attempt_at_utc := 500,
       last_error := none, status := Retry.RStatus.succeeded, created_at_utc := 0 }] 20
  obtain ⟨-, -, h3z, -, -⟩ := claim_C8 2000
    { rid := "r0", attempt_count := 0, max_attempts := 0, next_attempt_at_utc := 900,
      last_error := none, status := Retry.RStatus.pending, created_at_utc := 0 }
    "boom" [] 20
  obtain ⟨-, h2f, -, -, -⟩ := claim_C8 3000
    { rid := "r4", attempt_count := 4, max_attempts := 5, next_attempt_at_utc := 900,
      last_error := none, status := Retry.RStatus.pending, created_at_utc := 0 }
    "down" [] 20
  obtain ⟨h3a, h3b⟩ := h3 (by decide)
  obtain ⟨h3za, h3zb⟩ := h3z (by decide)
  exact ⟨⟨h1, h3a, h3b⟩, ⟨h3za, h3zb⟩, h2f (by decide), h5⟩

/-- Claim C9: on a `google_tokens` row whose three encrypted fields are all
present and non-blank, `getGoogleTokens` does not throw and returns the row
with `refresh_token = null` — because it calls `decryptToken` with a single
object argument, leaving the positional `iv` and `tag` parameters undefined,
so `decryptToken`'s falsy-argument guard returns null regardless of the
decryption core. -/
theorem claim_C9 (core : Tokens.JsVal → Tokens.JsVal → Tokens.JsVal → Except String String)
    (row : Tokens.GoogleTokensRow) (e i tg : String)
    (he : row.refresh_token_enc = some e) (hi : row.refresh_token_iv = some i)
    (ht : row.refresh_token_tag = some tg)
    (hne : trimStr e ≠ "") (hni : trimStr i ≠ "") (hnt : trimStr tg ≠ "") :
    Tokens.decryptToken core Tokens.JsVal.obj Tokens.JsVal.undef Tokens.JsVal.undef =
        Except.ok none ∧
    Tokens.getGoogleTokens core (some row) =
      Except.ok (some { row with
        refresh_token_enc := some (trimStr e)
        refresh_token_iv := some (trimStr i)
        refresh_token_tag := some (trimStr tg)
        refresh_token := none }) := by
  constructor
  · rfl
  · simp only [Tokens.getGoogleTokens, he, hi, ht, Option.isSome_some, Bool.true_or,
      Bool.or_true, if_true, Option.getD_some]
    rw [if_neg (by simp [hne, hni, hnt])]
    rfl

/-- Claim C9 witness: the theorem applied to a concrete row and a decryption
core that would return a plaintext if it were ever consulted. -/
theorem claim_C9_witness :
    Tokens.decryptToken (fun _ _ _ => Except.ok "PLAINTEXT") Tokens.JsVal.obj
        Tokens.JsVal.undef Tokens.JsVal.undef = Except.ok none ∧
    Tokens.getGoogleTokens (fun _ _ _ => Except.ok "PLAINTEXT")
        (some { business_id := "biz1", access_token := some "at", refresh_token := some "legacy",
                refresh_token_enc := some "abc", refresh_token_iv := some "def",
                refresh_token_tag := some "ghi" }) =
      Except.ok (some
        { business_id := "biz1", access_token := some "at", refresh_token := none,
          refresh_token_enc := some "abc", refresh_token_iv := some "def",
          refresh_token_tag := some "ghi" }) := by
  have h := claim_C9 (fun _ _ _ => Except.ok "PLAINTEXT")
    { business_id := "biz1", access_token := some "at", refresh_token := some "legacy",
      refresh_token_enc := some "abc", refresh_token_iv := some "def",
      refresh_token_tag := some "ghi" } "abc" "def" "ghi" rfl rfl rfl
    (by decide) (by decide) (by decide)
  exact h

/-- Claim C5: `updateBookingStatus` (hence `confirmBooking`, `failBooking`,
`cancelBooking`) succeeds exactly for pending→confirmed, pending→failed,
pending→cancelled and confirmed→cancelled; any other requested transition on
an existing booking is rejected with `INVALID_STATUS_TRANSITION` (the throw
happens before the UPDATE, so the step semantics leaves the table — hence the
booking row — unchanged). -/
theorem claim_C5 (tbl : Ledger.BookingsTable) (bookingId : String)
    (newStatus : Ledger.BStatus) (fields : Ledger.UpdateFields) (b : Ledger.Booking)
    (hfind : Ledger.getBookingById tbl bookingId = some b) :
    ((∃ t, Ledger.updateBookingStatus tbl bookingId newStatus fields = Except.ok t) ↔
      ((b.status = Ledger.BStatus.pending ∧
          (newStatus = Ledger.BStatus.confirmed ∨ newStatus = Ledger.BStatus.failed ∨
            newStatus = Ledger.BStatus.cancelled)) ∨
        (b.status = Ledger.BStatus.confirmed ∧ newStatus = Ledger.BStatus.cancelled))) ∧
    (Ledger.allowedTransition b.status newStatus = false →
      Ledger.updateBookingStatus tbl bookingId newStatus fields =
        Except.error (Ledger.DbErr.invalidStatusTransition b.status newStatus)) ∧
    (Ledger.allowedTransition b.status Ledger.BStatus.confirmed = false →
      ∀ g, Ledger.stepLedger tbl (Ledger.LedgerOp.confirm bookingId g) = tbl) ∧
    (Ledger.allowedTransition b.status Ledger.BStatus.failed = false →
      ∀ r, Ledger.stepLedger tbl (Ledger.LedgerOp.failOp bookingId r) = tbl) ∧
    (Ledger.allowedTransition b.status Ledger.BStatus.cancelled = false →
      Ledger.stepLedger tbl (Ledger.LedgerOp.cancel bookingId) = tbl) := by
  have henum : Ledger.allowedTransition b.status newStatus = true ↔
      ((b.status = Ledger.BStatus.pending ∧
          (newStatus = Ledger.BStatus.confirmed ∨ newStatus = Ledger.BStatus.failed ∨
            newStatus = Ledger.BStatus.cancelled)) ∨
        (b.status = Ledger.BStatus.confirmed ∧ newStatus = Ledger.BStatus.cancelled)) := by
    cases hb : b.status <;> cases hn : newStatus <;> simp [Ledger.allowedTransition]
  refine ⟨?_, ?_, ?_, ?_, ?_⟩
  · rw [← henum]
    simp only [Ledger.updateBookingStatus, hfind]
    constructor
    · rintro ⟨t, ht⟩
      by_contra hna
      rw [Bool.not_eq_true] at hna
      rw [if_neg (by simp [hna])] at ht
      exact absurd ht (by simp)
    · intro ha
      rw [if_pos ha]
      exact ⟨_, rfl⟩
  · intro hna
    simp only [Ledger.updateBookingStatus, hfind]
    rw [if_neg (by simp [hna])]
  · intro hna g
    simp only [Ledger.stepLedger, Ledger.confirmBooking, Ledger.updateBookingStatus, hfind]
    rw [if_neg (by simp [hna])]
  · intro hna r
    simp only [Ledger.stepLedger, Ledger.failBooking, Ledger.updateBookingStatus, hfind]
    rw [if_neg (by simp [hna])]
  · intro hna
    simp only [Ledger.stepLedger, Ledger.cancelBooking, Ledger.updateBookingStatus, hfind]
    rw [if_neg (by simp [hna])]

/-- Claim C5 witness: on a table holding one `confirmed` booking, the theorem
applied to the rejected transition confirmed→failed. -/
theorem claim_C5_witness :
    Ledger.updateBookingStatus
        [{ bid := "b1", business_id := "biz1", start_utc := 0, end_utc := 60,
           overlap_start_utc := 0, overlap_end_utc := 60, status := Ledger.BStatus.confirmed,
           hold_expires_at_utc := none, slot_key := "", idempotency_key := none,
           customer_phone := none, gcal_event_id := none, failure_reason := none,
           job_summary := none }]
        "b1" Ledger.BStatus.failed {} =
      Except.error
        (Ledger.DbErr.invalidStatusTransition Ledger.BStatus.confirmed Ledger.BStatus.failed) ∧
    (∀ r, Ledger.stepLedger
        [{ bid := "b1", business_id := "biz1", start_utc := 0, end_utc := 60,
           overlap_start_utc := 0, overlap_end_utc := 60, status := Ledger.BStatus.confirmed,
           hold_expires_at_utc := none, slot_key := "", idempotency_key := none,
           customer_phone := none, gcal_event_id := none, failure_reason := none,
           job_summary := none }]
        (Ledger.LedgerOp.failOp "b1" r) =
      [{ bid := "b1", business_id := "biz1", start_utc := 0, end_utc := 60,
         overlap_start_utc := 0, overlap_end_utc := 60, status := Ledger.BStatus.confirmed,
         hold_expires_at_utc := none, slot_key := "", idempotency_key := none,
         customer_phone := none, gcal_event_id := none, failure_reason := none,
         job_summary := none }]) := by
  have h := claim_C5
    [{ bid := "b1", business_id := "biz1", start_utc := 0, end_utc := 60,
       overlap_start_utc := 0, overlap_end_utc := 60, status := Ledger.BStatus.confirmed,
       hold_expires_at_utc := none, slot_key := "", idempotency_key := none,
       customer_phone := none, gcal_event_id := none, failure_reason := none,
       job_summary := none }]
    "b1" Ledger.BStatus.failed {}
    { bid := "b1", business_id := "biz1", start_utc := 0, end_utc := 60,
      overlap_start_utc := 0, overlap_end_utc := 60, status := Ledger.BStatus.confirmed,
      hold_expires_at_utc := none, slot_key := "", idempotency_key := none,
      customer_phone := none, gcal_event_id := none, failure_reason := none,
      job_summary := none }
    (by decide)
  exact ⟨h.2.1 (by decide), h.2.2.2.1 (by decide)⟩

/-- Claim C10 (amended at the weekday-scan clause: the code picks the first
`mon`..`fri` day whose window list is non-empty AND has a truthy first-window
start and last-window end, skipping days that merely have a non-empty list):
`isOutsideBusinessHours` ignores the weekday of the requested start — its
verdict depends only on the start's local minutes-of-day — derives the single
daily window from the explicit fields when both are truthy, otherwise from
the weekday scan, and returns `false` (inside business hours) whenever the
start is missing, the timezone is invalid, no window can be derived, a
derived bound fails to parse as `HH:MM`, or the window's start equals its
end. -/
theorem claim_C10 :
    (∀ (zones zones' : String → Option (Int → Int)) (p : BH.BHProfile) (t t' : Int)
        (f f' : Int → Int),
      zones (BH.resolvedTz p) = some f → zones' (BH.resolvedTz p) = some f' →
      f t % 1440 = f' t' % 1440 →
      BH.isOutsideBusinessHours zones (some t) p = BH.isOutsideBusinessHours zones' (some t') p) ∧
    (∀ p : BH.BHProfile,
      strTruthy (jsOrStr p.working_hours_start p.workingHoursStart) = true →
      strTruthy (jsOrStr p.working_hours_end p.workingHoursEnd) = true →
      BH.getProfileHours p =
        some ((jsOrStr p.working_hours_start p.workingHoursStart).getD "",
          (jsOrStr p.working_hours_end p.workingHoursEnd).getD "")) ∧
    (∀ (p : BH.BHProfile) (wh : BH.ParsedWh),
      p.working_hours_json = BH.WhJson.parsed wh →
      (strTruthy (jsOrStr p.working_hours_start p.workingHoursStart) = false ∨
        strTruthy (jsOrStr p.working_hours_end p.workingHoursEnd) = false) →
      BH.getProfileHours p =
        ((BH.dayWindowHours wh.mon).orElse fun _ =>
          (BH.dayWindowHours wh.tue).orElse fun _ =>
            (BH.dayWindowHours wh.wed).orElse fun _ =>
              (BH.dayWindowHours wh.thu).orElse fun _ =>
                BH.dayWindowHours wh.fri)) ∧
    (∀ zones p, BH.isOutsideBusinessHours zones none p = false) ∧
    (∀ zones p t, zones (BH.resolvedTz p) = none →
      BH.isOutsideBusinessHours zones (some t) p = false) ∧
    (∀ zones p t, BH.getProfileHours p = none →
      BH.isOutsideBusinessHours zones (some t) p = false) ∧
    (∀ zones p t hs he, BH.getProfileHours p = some (hs, he) →
      (BH.parseTimeToMinutes hs = none ∨ BH.parseTimeToMinutes he = none) →
      BH.isOutsideBusinessHours zones (some t) p = false) ∧
    (∀ zones p t hs he m, BH.getProfileHours p = some (hs, he) →
      BH.parseTimeToMinutes hs = some m → BH.parseTimeToMinutes he = some m →
      BH.isOutsideBusinessHours zones (some t) p = false) := by
  refine ⟨?_, ?_, ?_, ?_, ?_, ?_, ?_, ?_⟩
  · intro zones zones' p t t' f f' hz hz' h
    simp only [BH.isOutsideBusinessHours, hz, hz', h]
  · intro p h1 h2
    simp only [BH.getProfileHours, h1, h2, Bool.and_self, if_true]
  · intro p wh hj hex
    simp only [BH.getProfileHours, hj]
    rcases hex with hex | hex <;> rw [if_neg (by simp [hex])]
  · intro zones p
    rfl
  · intro zones p t hz
    simp only [BH.isOutsideBusinessHours, hz]
  · intro zones p t hg
    simp only [BH.isOutsideBusinessHours, hg]
    cases zones (BH.resolvedTz p) <;> rfl
  · intro zones p t hs he hg hp
    simp only [BH.isOutsideBusinessHours, hg]
    cases zones (BH.resolvedTz p) with
    | none => rfl
    | some f =>
      rcases hp with hp | hp
      · rw [hp]
      · rw [hp]
        cases BH.parseTimeToMinutes hs <;> rfl
  · intro zones p t hs he m hg hps hpe
    simp only [BH.isOutsideBusinessHours, hg, hps, hpe]
    cases zones (BH.resolvedTz p) <;> simp

/-- The merge loop preserves the union of time points: merging under
`cur.start ≤ last.end` (with starts sorted) absorbs exactly the merged
interval's points. -/
theorem mergeGo_union (l : List Slots.Interval) (last : Slots.Interval)
    (hp : List.Pairwise (fun a b => a.istart ≤ b.istart) (last :: l)) (t : Int) :
    Slots.inUnion t (Slots.mergeGo last l) ↔ Slots.inIv t last ∨ Slots.inUnion t l := by
  induction l generalizing last with
  | nil => simp [Slots.mergeGo, Slots.inUnion]
  | cons cur rest ih =>
    have hlc : last.istart ≤ cur.istart := (List.pairwise_cons.mp hp).1 cur (by simp)
    have hpr : List.Pairwise (fun a b : Slots.Interval => a.istart ≤ b.istart) (cur :: rest) :=
      (List.pairwise_cons.mp hp).2
    rw [Slots.mergeGo]
    split
    case isTrue hle =>
      have hpm : List.Pairwise (fun a b : Slots.Interval => a.istart ≤ b.istart)
          ({ istart := last.istart, iend := max last.iend cur.iend } :: rest) := by
        rw [List.pairwise_cons]
        exact ⟨fun x hx => le_trans hlc ((List.pairwise_cons.mp hpr).1 x hx),
          (List.pairwise_cons.mp hpr).2⟩
      rw [ih _ hpm]
      have hiv : Slots.inIv t { istart := last.istart, iend := max last.iend cur.iend } ↔
          Slots.inIv t last ∨ Slots.inIv t cur := by
        simp only [Slots.inIv]
        rcases le_total last.iend cur.iend with hm | hm
        · rw [max_eq_right hm]; omega
        · rw [max_eq_left hm]; omega
      rw [hiv]
      simp only [Slots.inUnion, List.mem_cons]
      constructor
      · rintro ((h | h) | ⟨iv, hiv1, hiv2⟩)
        · exact Or.inl h
        · exact Or.inr ⟨cur, Or.inl rfl, h⟩
        · exact Or.inr ⟨iv, Or.inr hiv1, hiv2⟩
      · rintro (h | ⟨iv, (rfl | hiv1), hiv2⟩)
        · exact Or.inl (Or.inl h)
        · exact Or.inl (Or.inr hiv2)
        · exact Or.inr ⟨iv, hiv1, hiv2⟩
    case isFalse hgt =>
      rw [show Slots.inUnion t (last :: Slots.mergeGo cur rest) ↔
          Slots.inIv t last ∨ Slots.inUnion t (Slots.mergeGo cur rest) by
        simp [Slots.inUnion]]
      rw [ih _ hpr]
      simp only [Slots.inUnion, List.mem_cons]
      constructor
      · rintro (h | h | ⟨iv, hiv1, hiv2⟩)
        · exact Or.inl h
        · exact Or.inr ⟨cur, Or.inl rfl, h⟩
        · exact Or.inr ⟨iv, Or.inr hiv1, hiv2⟩
      · rintro (h | ⟨iv, (rfl | hiv1), hiv2⟩)
        · exact Or.inl h
        · exact Or.inr (Or.inl hiv2)
        · exact Or.inr (Or.inr ⟨iv, hiv1, hiv2⟩)

/-- Every interval emitted by the merge loop starts no earlier than the
accumulator it began with. -/
theorem mergeGo_starts (l : List Slots.Interval) (last : Slots.Interval)
    (hp : List.Pairwise (fun a b => a.istart ≤ b.istart) (last :: l)) :
    ∀ x ∈ Slots.mergeGo last l, last.istart ≤ x.istart := by
  induction l generalizing last with
  | nil =>
    intro x hx
    rw [Slots.mergeGo, List.mem_singleton] at hx
    exact hx ▸ le_refl _
  | cons cur rest ih =>
    intro x hx
    have hlc : last.istart ≤ cur.istart := (List.pairwise_cons.mp hp).1 cur (by simp)
    have hpr : List.Pairwise (fun a b : Slots.Interval => a.istart ≤ b.istart) (cur :: rest) :=
      (List.pairwise_cons.mp hp).2
    rw [Slots.mergeGo] at hx
    split at hx
    case isTrue hle =>
      have hpm : List.Pairwise (fun a b : Slots.Interval => a.istart ≤ b.istart)
          ({ istart := last.istart, iend := max last.iend cur.iend } :: rest) := by
        rw [List.pairwise_cons]
        exact ⟨fun y hy => le_trans hlc ((List.pairwise_cons.mp hpr).1 y hy),
          (List.pairwise_cons.mp hpr).2⟩
      exact ih _ hpm x hx
    case isFalse hgt =>
      rcases List.mem_cons.mp hx with rfl | hx
      · exact le_refl _
      · exact le_trans hlc (ih _ hpr x hx)

/-- The merge loop's output is sorted by start and strictly separated:
each interval ends before the next begins. -/
theorem mergeGo_pairwise (l : List Slots.Interval) (last : Slots.Interval)
    (hp : List.Pairwise (fun a b => a.istart ≤ b.istart) (last :: l)) :
    List.Pairwise (fun a b => a.istart ≤ b.istart ∧ a.iend < b.istart)
      (Slots.mergeGo last l) := by
  induction l generalizing last with
  | nil => simp [Slots.mergeGo]
  | cons cur rest ih =>
    have hlc : last.istart ≤ cur.istart := (List.pairwise_cons.mp hp).1 cur (by simp)
    have hpr : List.Pairwise (fun a b : Slots.Interval => a.istart ≤ b.istart) (cur :: rest) :=
      (List.pairwise_cons.mp hp).2
    rw [Slots.mergeGo]
    split
    case isTrue hle =>
      have hpm : List.Pairwise (fun a b : Slots.Interval => a.istart ≤ b.istart)
          ({ istart := last.istart, iend := max last.iend cur.iend } :: rest) := by
        rw [List.pairwise_cons]
        exact ⟨fun y hy => le_trans hlc ((List.pairwise_cons.mp hpr).1 y hy),
          (List.pairwise_cons.mp hpr).2⟩
      exact ih _ hpm
    case isFalse hgt =>
      rw [List.pairwise_cons]
      refine ⟨fun y hy => ?_, ih _ hpr⟩
      have hcy : cur.istart ≤ y.istart := mergeGo_starts rest cur hpr y hy
      constructor
      · exact le_trans hlc hcy
      · omega

/-- The sort step yields a list sorted by start and a permutation of its
input. -/
theorem sortByStart_sorted (l : List Slots.Interval) :
    List.Pairwise (fun a b => a.istart ≤ b.istart) (Slots.sortByStart l) := by
  have h := @List.sorted_mergeSort Slots.Interval
    (fun x y : Slots.Interval => decide (x.istart ≤ y.istart))
    (fun a b c hab hbc => by
      simp only [decide_eq_true_eq] at *
      exact le_trans hab hbc)
    (fun a b => by
      simp only [decide_eq_true_eq, Bool.or_eq_true]
      exact le_total a.istart b.istart)
    l
  exact h.imp fun h => by simpa using h

/-- Claim C7: for valid busy intervals and non-negative buffers,
`normalizeBusyUtc` returns a list sorted by start, pairwise non-overlapping
(under the source's strict overlap rule), whose set of covered instants
equals the union of the inputs expanded by `bufferBefore` to the left and
`bufferAfter` to the right. -/
theorem claim_C7 (busy : List Slots.BusyInput) (bufferBeforeMin bufferAfterMin : Int)
    (hbb : 0 ≤ bufferBeforeMin) (hba : 0 ≤ bufferAfterMin) :
    List.Pairwise (fun a b => a.istart ≤ b.istart)
        (Slots.normalizeBusyUtc busy bufferBeforeMin bufferAfterMin) ∧
    List.Pairwise (fun a b => ¬(a.istart < b.iend ∧ a.iend > b.istart))
        (Slots.normalizeBusyUtc busy bufferBeforeMin bufferAfterMin) ∧
    ∀ t : Int, Slots.inUnion t (Slots.normalizeBusyUtc busy bufferBeforeMin bufferAfterMin) ↔
      ∃ b ∈ busy, b.bstart - bufferBeforeMin ≤ t ∧ t < b.bend + bufferAfterMin := by
  set m := busy.map fun b =>
    ({ istart := b.bstart - bufferBeforeMin, iend := b.bend + bufferAfterMin } :
      Slots.Interval) with hm
  have hperm : (Slots.sortByStart m).Perm m := List.mergeSort_perm m _
  have hunionm : ∀ t : Int, Slots.inUnion t m ↔
      ∃ b ∈ busy, b.bstart - bufferBeforeMin ≤ t ∧ t < b.bend + bufferAfterMin := by
    intro t
    simp only [Slots.inUnion, hm, List.mem_map, Slots.inIv]
    constructor
    · rintro ⟨iv, ⟨b, hb, rfl⟩, h2⟩
      exact ⟨b, hb, h2⟩
    · rintro ⟨b, hb, h2⟩
      exact ⟨_, ⟨b, hb, rfl⟩, h2⟩
  have hsorted := sortByStart_sorted m
  rw [show Slots.normalizeBusyUtc busy bufferBeforeMin bufferAfterMin =
      Slots.mergeIntervals m from rfl]
  rw [Slots.mergeIntervals]
  cases hss : Slots.sortByStart m with
  | nil =>
    have hmnil : m = [] := (List.Perm.nil_eq (hss ▸ hperm)).symm
    refine ⟨List.Pairwise.nil, List.Pairwise.nil, fun t => ?_⟩
    rw [show Slots.inUnion t ([] : List Slots.Interval) ↔ False by simp [Slots.inUnion]]
    rw [← hunionm t, hmnil]
    simp [Slots.inUnion]
  | cons first rest =>
    rw [hss] at hsorted
    have hpw := mergeGo_pairwise rest first hsorted
    refine ⟨hpw.imp fun h => h.1, hpw.imp fun h => by omega, fun t => ?_⟩
    rw [mergeGo_union rest first hsorted t]
    rw [show Slots.inIv t first ∨ Slots.inUnion t rest ↔ Slots.inUnion t (first :: rest) by
      simp [Slots.inUnion]]
    rw [← hss, ← hunionm t]
    constructor
    · rintro ⟨iv, hiv1, hiv2⟩
      exact ⟨iv, hperm.mem_iff.mp hiv1, hiv2⟩
    · rintro ⟨iv, hiv1, hiv2⟩
      exact ⟨iv, hperm.mem_iff.mpr hiv1, hiv2⟩

/-- Claim C7 witness: the theorem applied to two overlapping busy intervals
with buffers 10 before / 5 after. -/
theorem claim_C7_witness :
    List.Pairwise (fun a b => ¬(a.istart < b.iend ∧ a.iend > b.istart))
        (Slots.normalizeBusyUtc [{ bstart := 100, bend := 160 }, { bstart := 150, bend := 200 }]
          10 5) ∧
    (Slots.inUnion 95 (Slots.normalizeBusyUtc
        [{ bstart := 100, bend := 160 }, { bstart := 150, bend := 200 }] 10 5) ↔
      ∃ b ∈ [({ bstart := 100, bend := 160 } : Slots.BusyInput),
        { bstart := 150, bend := 200 }], b.bstart - 10 ≤ 95 ∧ (95 : Int) < b.bend + 5) := by
  obtain ⟨_, h2, h3⟩ := claim_C7
    [{ bstart := 100, bend := 160 }, { bstart := 150, bend := 200 }] 10 5
    (by decide) (by decide)
  exact ⟨h2, h3 95⟩

/-- A terminal booking never satisfies the active predicate. -/
theorem terminal_not_active (now : Int) (b : Ledger.Booking)
    (h : b.status.isTerminal = true) : Ledger.isActive now b = false := by
  cases hs : b.status <;> rw [hs] at h <;>
    simp_all [Ledger.BStatus.isTerminal, Ledger.isActive, hs]

/-- `BOOKING_TRANSITIONS` admits no transition out of a terminal status. -/
theorem allowed_from_not_terminal {s t : Ledger.BStatus}
    (h : Ledger.allowedTransition s t = true) : s.isTerminal = false := by
  cases s <;> cases t <;> simp_all [Ledger.allowedTransition, Ledger.BStatus.isTerminal]

/-- `SepInv` is preserved by any row-wise rewrite that keeps id, business and
overlap window, and maps terminal rows to terminal rows. -/
theorem sepInv_map (tbl : Ledger.BookingsTable) (f : Ledger.Booking → Ledger.Booking)
    (hid : ∀ b ∈ tbl, (f b).bid = b.bid)
    (hbiz : ∀ b ∈ tbl, (f b).business_id = b.business_id)
    (hos : ∀ b ∈ tbl, (f b).overlap_start_utc = b.overlap_start_utc)
    (hoe : ∀ b ∈ tbl, (f b).overlap_end_utc = b.overlap_end_utc)
    (hterm : ∀ b ∈ tbl, b.status.isTerminal = true → (f b).status.isTerminal = true)
    (h : Ledger.SepInv tbl) : Ledger.SepInv (tbl.map f) := by
  obtain ⟨hnd, hpair⟩ := h
  constructor
  · have heq : (tbl.map f).map Ledger.Booking.bid = tbl.map Ledger.Booking.bid := by
      rw [List.map_map]
      exact List.map_congr_left fun b hb => hid b hb
    rw [heq]
    exact hnd
  · rintro a' ha' b' hb' hne hbizeq hov
    obtain ⟨a, ha, rfl⟩ := List.mem_map.mp ha'
    obtain ⟨b, hb, rfl⟩ := List.mem_map.mp hb'
    rw [hid a ha, hid b hb] at hne
    rw [hbiz a ha, hbiz b hb] at hbizeq
    unfold Ledger.overlapsB at hov
    rw [hos a ha, hoe a ha, hos b hb, hoe b hb] at hov
    rcases hpair a ha b hb hne hbizeq hov with h1 | h1
    · exact Or.inl (hterm a ha h1)
    · exact Or.inr (hterm b hb h1)

/-- The business-scoped in-transaction sweep leaves booking ids unchanged. -/
theorem cancelExpiredInTx_ids (now : Int) (biz : String) (tbl : Ledger.BookingsTable) :
    (Ledger.cancelExpiredInTx now biz tbl).map Ledger.Booking.bid =
      tbl.map Ledger.Booking.bid := by
  unfold Ledger.cancelExpiredInTx
  rw [List.map_map]
  refine List.map_congr_left fun b _ => ?_
  simp only [Function.comp_apply]
  split <;> rfl

/-- After the in-transaction sweep, every row of the business is either
active now or terminal: expired pending holds have just been cancelled. -/
theorem post_sweep_active_or_terminal (now : Int) (biz : String) (tbl : Ledger.BookingsTable)
    (a : Ledger.Booking) (ha : a ∈ Ledger.cancelExpiredInTx now biz tbl)
    (hbiz : a.business_id = biz) :
    Ledger.isActive now a = true ∨ a.status.isTerminal = true := by
  unfold Ledger.cancelExpiredInTx at ha
  obtain ⟨b0, _, hfb⟩ := List.mem_map.mp ha
  by_cases hc : (decide (b0.business_id = biz) && Ledger.holdExpired now b0) = true
  · rw [if_pos hc] at hfb
    right
    rw [← hfb]
    rfl
  · rw [if_neg hc] at hfb
    subst hfb
    have hne : Ledger.holdExpired now b0 = false := by
      by_contra hcc
      rw [Bool.not_eq_false] at hcc
      exact hc (by rw [Bool.and_eq_true]; exact ⟨by simp [hbiz], hcc⟩)
    cases hs : b0.status with
    | pending =>
      left
      cases hh : b0.hold_expires_at_utc with
      | none => simp [Ledger.isActive, hs, hh]
      | some hexp =>
        simp only [Ledger.holdExpired, hs, hh, decide_eq_true_eq, Bool.and_eq_false_iff,
          decide_eq_false_iff_not] at hne
        have hlt : now < hexp := by
          rcases hne with hne | hne
          · exact absurd trivial hne
          · omega
        simp [Ledger.isActive, hs, hh, hlt]
    | confirmed => left; simp [Ledger.isActive, hs]
    | failed => right; simp [Ledger.BStatus.isTerminal, hs]
    | cancelled => right; simp [Ledger.BStatus.isTerminal, hs]

/-- Both business-scoped sweeps preserve the separation invariant. -/
theorem sepInv_cleanup (now : Int) (businessId : Option String) (tbl : Ledger.BookingsTable)
    (h : Ledger.SepInv tbl) :
    Ledger.SepInv (Ledger.cleanupExpiredHolds now businessId tbl) := by
  cases businessId with
  | none =>
    refine sepInv_map tbl _ ?_ ?_ ?_ ?_ ?_ h <;> intro b _ <;> try intro hterm
    all_goals split <;> simp_all [Ledger.BStatus.isTerminal]
  | some biz =>
    refine sepInv_map tbl _ ?_ ?_ ?_ ?_ ?_ h <;> intro b _ <;> try intro hterm
    all_goals split <;> simp_all [Ledger.BStatus.isTerminal]

/-- The in-transaction sweep preserves the separation invariant. -/
theorem sepInv_cancelExpiredInTx (now : Int) (biz : String) (tbl : Ledger.BookingsTable)
    (h : Ledger.SepInv tbl) : Ledger.SepInv (Ledger.cancelExpiredInTx now biz tbl) := by
  refine sepInv_map tbl _ ?_ ?_ ?_ ?_ ?_ h <;> intro b _ <;> try intro hterm
  all_goals split <;> simp_all [Ledger.BStatus.isTerminal]

/-- A successful `updateBookingStatus` preserves the separation invariant:
the transition table blocks updates of terminal rows, and the UPDATE touches
neither window nor business nor id. -/
theorem sepInv_update (tbl : Ledger.BookingsTable) (bookingId : String)
    (ns : Ledger.BStatus) (fields : Ledger.UpdateFields) (t' : Ledger.BookingsTable)
    (h : Ledger.SepInv tbl)
    (hok : Ledger.updateBookingStatus tbl bookingId ns fields = Except.ok t') :
    Ledger.SepInv t' := by
  unfold Ledger.updateBookingStatus at hok
  split at hok
  · exact absurd hok (by simp)
  next booking hfind =>
    split at hok
    next hallow =>
      rw [Except.ok.injEq] at hok
      subst hok
      have hbmem : booking ∈ tbl := List.mem_of_find?_eq_some hfind
      have hbid : booking.bid = bookingId := by
        have := List.find?_some hfind
        simpa using this
      refine sepInv_map tbl _ ?_ ?_ ?_ ?_ ?_ h <;> intro b hb
      · by_cases hc : b.bid = bookingId <;> simp [hc, Ledger.applyFields]
      · by_cases hc : b.bid = bookingId <;> simp [hc, Ledger.applyFields]
      · by_cases hc : b.bid = bookingId <;> simp [hc, Ledger.applyFields]
      · by_cases hc : b.bid = bookingId <;> simp [hc, Ledger.applyFields]
      · intro hterm
        by_cases hc : b.bid = bookingId
        · exfalso
          have hbeq : b = booking :=
            List.inj_on_of_nodup_map h.1 hb hbmem (by rw [hc, hbid])
          rw [hbeq] at hterm
          rw [allowed_from_not_terminal hallow] at hterm
          exact Bool.false_ne_true hterm
        · simp [hc, hterm]
    next hallow => exact absurd hok (by simp)

/-- `createPendingHoldIfAvailableTx` preserves the separation invariant: the
inserted row overlaps no active row (the in-transaction SELECT), and every
inactive same-business row is terminal after the sweep. -/
theorem sepInv_createHold (now : Int) (p : Ledger.HoldPayload) (tbl : Ledger.BookingsTable)
    (h : Ledger.SepInv tbl) :
    Ledger.SepInv (Ledger.createPendingHoldIfAvailableTx now p tbl).2 := by
  unfold Ledger.createPendingHoldIfAvailableTx
  by_cases h0 : (p.pid = "" || p.business_id = "") = true
  · rw [if_pos h0]; exact h
  · rw [if_neg h0]
    set t1 := Ledger.cancelExpiredInTx now p.business_id tbl with ht1
    have h1 : Ledger.SepInv t1 := sepInv_cancelExpiredInTx now p.business_id tbl h
    by_cases hov : (t1.any fun b =>
        decide (b.business_id = p.business_id) && Ledger.isActive now b &&
          decide (b.overlap_start_utc < p.overlap_end_utc) &&
          decide (b.overlap_end_utc > p.overlap_start_utc)) = true
    · rw [if_pos hov]; exact h
    · rw [if_neg hov]
      by_cases hpk : (t1.any fun b => decide (b.bid = p.pid)) = true
      · rw [if_pos hpk]; exact h
      · rw [if_neg hpk]
        have hnov : ∀ b ∈ t1, b.business_id = p.business_id →
            Ledger.isActive now b = true →
            ¬(b.overlap_start_utc < p.overlap_end_utc ∧
              b.overlap_end_utc > p.overlap_start_utc) := by
          intro b hb hbiz hact hc
          apply hov
          rw [List.any_eq_true]
          exact ⟨b, hb, by simp [hbiz, hact, hc.1, hc.2]⟩
        have hterm_of_ov : ∀ b ∈ t1, b.business_id = p.business_id →
            (b.overlap_start_utc < p.overlap_end_utc ∧
              b.overlap_end_utc > p.overlap_start_utc) →
            b.status.isTerminal = true := by
          intro b hb hbiz hc
          rcases post_sweep_active_or_terminal now p.business_id tbl b (ht1 ▸ hb) hbiz with
            hact | hterm
          · exact absurd hc (hnov b hb hbiz hact)
          · exact hterm
        have hnewid : ∀ b ∈ t1, b.bid ≠ p.pid := by
          intro b hb hc
          exact hpk (List.any_eq_true.mpr ⟨b, hb, by simp [hc]⟩)
        constructor
        · rw [List.map_append]
          rw [List.nodup_append]
          refine ⟨h1.1, by simp [Ledger.mkPendingBooking], ?_⟩
          intro x hx
          simp only [List.map_cons, List.map_nil, List.mem_singleton, Ledger.mkPendingBooking]
          obtain ⟨b, hb, rfl⟩ := List.mem_map.mp hx
          intro hc
          exact hnewid b hb (by simpa using hc)
        · rintro a ha b hb hne hbiz hovab
          rcases List.mem_append.mp ha with ha1 | ha1 <;>
            rcases List.mem_append.mp hb with hb1 | hb1
          · exact h1.2 a ha1 b hb1 hne hbiz hovab
          · -- b is the new row
            rw [List.mem_singleton] at hb1
            subst hb1
            left
            refine hterm_of_ov a ha1 (by simpa [Ledger.mkPendingBooking] using hbiz) ?_
            simpa [Ledger.mkPendingBooking, Ledger.overlapsB] using hovab
          · -- a is the new row
            rw [List.mem_singleton] at ha1
            subst ha1
            right
            refine hterm_of_ov b hb1
              (by simpa [Ledger.mkPendingBooking] using hbiz.symm) ?_
            unfold Ledger.overlapsB at hovab
            simp only [Ledger.mkPendingBooking] at hovab
            exact ⟨by omega, by omega⟩
          · rw [List.mem_singleton] at ha1 hb1
            subst ha1; subst hb1
            exact absurd rfl hne

/-- Every reachable bookings table satisfies the separation invariant. -/
theorem reachable_sepInv (tbl : Ledger.BookingsTable) (h : Ledger.Reachable tbl) :
    Ledger.SepInv tbl := by
  induction h with
  | base => exact ⟨List.nodup_nil, by intro a ha; exact absurd ha (List.not_mem_nil a)⟩
  | next hr op ih =>
    cases op with
    | createHold now p => exact sepInv_createHold now p _ ih
    | confirm bookingId g =>
      simp only [Ledger.stepLedger]
      cases hu : Ledger.confirmBooking _ bookingId g with
      | ok t => exact sepInv_update _ bookingId _ _ t ih hu
      | error e => exact ih
    | failOp bookingId r =>
      simp only [Ledger.stepLedger]
      cases hu : Ledger.failBooking _ bookingId r with
      | ok t => exact sepInv_update _ bookingId _ _ t ih hu
      | error e => exact ih
    | cancel bookingId =>
      simp only [Ledger.stepLedger]
      cases hu : Ledger.cancelBooking _ bookingId with
      | ok t => exact sepInv_update _ bookingId _ _ t ih hu
      | error e => exact ih
    | cleanup now biz => exact sepInv_cleanup now biz _ ih

/-- Claim C1: in every bookings-table state reachable by any sequential run
of the reservation-ledger operations from the empty table, no two distinct
same-business bookings that are both active (confirmed, or pending with a
null or strictly-future hold expiry) have overlapping windows. -/
theorem claim_C1 (tbl : Ledger.BookingsTable) (h : Ledger.Reachable tbl) (now : Int)
    (a b : Ledger.Booking) (ha : a ∈ tbl) (hb : b ∈ tbl) (hne : a ≠ b)
    (hbiz : a.business_id = b.business_id)
    (hactA : Ledger.isActive now a = true) (hactB : Ledger.isActive now b = true) :
    ¬(a.overlap_start_utc < b.overlap_end_utc ∧ a.overlap_end_utc > b.overlap_start_utc) := by
  intro hov
  obtain ⟨hnd, hpair⟩ := reachable_sepInv tbl h
  have hneid : a.bid ≠ b.bid := by
    intro hc
    exact hne (List.inj_on_of_nodup_map hnd ha hb hc)
  rcases hpair a ha b hb hneid hbiz hov with ht | ht
  · rw [terminal_not_active now a ht] at hactA
    exact Bool.false_ne_true hactA
  · rw [terminal_not_active now b ht] at hactB
    exact Bool.false_ne_true hactB

/-- Claim C1 witness: a table reached by two `createPendingHoldIfAvailableTx`
calls for adjacent windows `[0,10)` and `[10,20)`; the theorem applied to the
two resulting active holds. -/
theorem claim_C1_witness :
    Ledger.Reachable
      [Ledger.mkPendingBooking
          { pid := "A", business_id := "z", start_utc := 0, end_utc := 10,
            overlap_start_utc := 0, overlap_end_utc := 10, hold_expires_at_utc := none },
        Ledger.mkPendingBooking
          { pid := "B", business_id := "z", start_utc := 10, end_utc := 20,
            overlap_start_utc := 10, overlap_end_utc := 20, hold_expires_at_utc := none }] ∧
    Ledger.isActive 0 (Ledger.mkPendingBooking
      { pid := "A", business_id := "z", start_utc := 0, end_utc := 10,
        overlap_start_utc := 0, overlap_end_utc := 10, hold_expires_at_utc := none }) = true ∧
    ¬((Ledger.mkPendingBooking
        { pid := "A", business_id := "z", start_utc := 0, end_utc := 10,
          overlap_start_utc := 0, overlap_end_utc := 10,
          hold_expires_at_utc := none }).overlap_start_utc <
        (Ledger.mkPendingBooking
          { pid := "B", business_id := "z", start_utc := 10, end_utc := 20,
            overlap_start_utc := 10, overlap_end_utc := 20,
            hold_expires_at_utc := none }).overlap_end_utc ∧
      (Ledger.mkPendingBooking
        { pid := "A", business_id := "z", start_utc := 0, end_utc := 10,
          overlap_start_utc := 0, overlap_end_utc := 10,
          hold_expires_at_utc := none }).overlap_end_utc >
        (Ledger.mkPendingBooking
          { pid := "B", business_id := "z", start_utc := 10, end_utc := 20,
            overlap_start_utc := 10, overlap_end_utc := 20,
            hold_expires_at_utc := none }).overlap_start_utc) := by
  have hreach : Ledger.Reachable
      [Ledger.mkPendingBooking
          { pid := "A", business_id := "z", start_utc := 0, end_utc := 10,
            overlap_start_utc := 0, overlap_end_utc := 10, hold_expires_at_utc := none },
        Ledger.mkPendingBooking
          { pid := "B", business_id := "z", start_utc := 10, end_utc := 20,
            overlap_start_utc := 10, overlap_end_utc := 20, hold_expires_at_utc := none }] :=
    Ledger.Reachable.next
      (Ledger.Reachable.next Ledger.Reachable.base
        (Ledger.LedgerOp.createHold 0
          { pid := "A", business_id := "z", start_utc := 0, end_utc := 10,
            overlap_start_utc := 0, overlap_end_utc := 10, hold_expires_at_utc := none }))
      (Ledger.LedgerOp.createHold 0
        { pid := "B", business_id := "z", start_utc := 10, end_utc := 20,
          overlap_start_utc := 10, overlap_end_utc := 20, hold_expires_at_utc := none })
  refine ⟨hreach, by decide, ?_⟩
  exact claim_C1 _ hreach 0 _ _ (by simp) (by simp)
    (by decide) (by decide) (by decide) (by decide)

/-- Claim C10 counterexample to the derivation clause as stated: `mon` has a
non-empty window list whose first window lacks a `start`, and `tue` has a
usable window.  The claim's rule picks `mon`, derives no window, and predicts
`false`; the code skips `mon`, uses `tue`'s `00:10`–`00:20` window, and
classifies a 02:00 local start as outside business hours (`true`). -/
theorem claim_C10_counterexample :
    BH.claimStatedProfileHours
        { working_hours_json := BH.WhJson.parsed
            { mon := some [{ winStart := none, winEnd := some "17:00" }],
              tue := some [{ winStart := some "00:10", winEnd := some "00:20" }] } } = none ∧
    BH.isOutsideBusinessHours (fun z => if z = "UTC" then some (fun t => t) else none)
        (some 120)
        { working_hours_json := BH.WhJson.parsed
            { mon := some [{ winStart := none, winEnd := some "17:00" }],
              tue := some [{ winStart := some "00:10", winEnd := some "00:20" }] } } = true := by
  constructor
  · decide
  · decide

/-- Claim C10 witness: the amended theorem's clauses applied at concrete
profiles — explicit 08:00–17:00 fields, a same-local-minute pair of instants
on different days, and a degenerate equal-bounds window. -/
theorem claim_C10_witness :
    BH.isOutsideBusinessHours (fun _ => some (fun t => t)) (some 120)
        { working_hours_start := some "08:00", working_hours_end := some "17:00" } =
      BH.isOutsideBusinessHours (fun _ => some (fun t => t)) (some (120 + 3 * 1440))
        { working_hours_start := some "08:00", working_hours_end := some "17:00" } ∧
    BH.getProfileHours
        { working_hours_start := some "08:00", working_hours_end := some "17:00" } =
      some ("08:00", "17:00") ∧
    BH.isOutsideBusinessHours (fun _ => some (fun t => t)) (some 120)
        { working_hours_start := some "09:00", working_hours_end := some "09:00" } = false := by
  obtain ⟨h1, h2, _, _, _, _, _, h8⟩ := claim_C10
  refine ⟨?_, ?_, ?_⟩
  · exact h1 (fun _ => some (fun t => t)) (fun _ => some (fun t => t))
      { working_hours_start := some "08:00", working_hours_end := some "17:00" }
      120 (120 + 3 * 1440) (fun t => t) (fun t => t) rfl rfl (by decide)
  · exact h2 { working_hours_start := some "08:00", working_hours_end := some "17:00" }
      (by decide) (by decide)
  · exact h8 (fun _ => some (fun t => t))
      { working_hours_start := some "09:00", working_hours_end := some "09:00" }
      120 "09:00" "09:00" 540 (by decide) (by decide) (by decide)

/-- Reduction: with a found business, a valid schedule and a failed
time-window validation, the flow returns the 400 policy rejection before any
state change. -/
theorem flow_window_reject (env : Flow.FlowEnv) (biz : Flow.BusinessRow)
    (schedule : Flow.Schedule)
    (hbne : env.input.businessId ≠ "")
    (hb : env.business = some biz)
    (hsch : Flow.validateAndBuildSchedule env.input biz env.profile env.startParseInput =
      Except.ok schedule)
    (hw : (Flow.validateBookingTimeWindow biz env.profile env.startParseBiz
      env.nowLocalBiz).1 = false) :
    Flow.createBookingFlow env =
      { status := 400, ok := false, error := some "INVALID_BOOKING_TIME_WINDOW",
        details := (Flow.validateBookingTimeWindow biz env.profile env.startParseBiz
          env.nowLocalBiz).2,
        table := env.table } := by
  unfold Flow.createBookingFlow
  rw [hb]
  simp only [Option.isNone_some, Bool.and_false, Bool.false_eq_true, if_false,
    Option.getD_some, if_neg hbne, hsch, hw, Bool.not_false, if_true]

/-- Reduction: past the window check, a hit in the idempotency lookup replays
the existing booking (200 for confirmed, 202 otherwise). -/
theorem flow_replay (env : Flow.FlowEnv) (biz : Flow.BusinessRow) (schedule : Flow.Schedule)
    (existing : Ledger.Booking)
    (hbne : env.input.businessId ≠ "")
    (hb : env.business = some biz)
    (hsch : Flow.validateAndBuildSchedule env.input biz env.profile env.startParseInput =
      Except.ok schedule)
    (hw : (Flow.validateBookingTimeWindow biz env.profile env.startParseBiz
      env.nowLocalBiz).1 = true)
    (hfound : Flow.getBookingByIdempotencyKey env.nowUtc (Flow.cleanedTable env)
      env.input.businessId (Flow.flowIdemKey env schedule) = some existing) :
    Flow.createBookingFlow env =
      (if existing.status = Ledger.BStatus.confirmed then
        { status := 200, ok := true, bodyStatus := some "confirmed",
          bookingId := some existing.bid,
          actions := [Flow.FlowAction.cleanupHolds], table := Flow.cleanedTable env }
      else
        { status := 202, ok := true, bodyStatus := some "pending",
          bookingId := some existing.bid,
          actions := [Flow.FlowAction.cleanupHolds], table := Flow.cleanedTable env }) := by
  unfold Flow.createBookingFlow
  rw [hb]
  simp only [Option.isNone_some, Bool.and_false, Bool.false_eq_true, if_false,
    Option.getD_some, if_neg hbne, hsch, hw, Bool.not_true, hfound]

/-- Reduction: with no replay hit, good credentials, an empty freebusy answer
and a successful hold transaction, the flow runs the insert loop. -/
theorem flow_reaches_insert (env : Flow.FlowEnv) (biz : Flow.BusinessRow)
    (schedule : Flow.Schedule) (t2 : Ledger.BookingsTable)
    (hbne : env.input.businessId ≠ "")
    (hb : env.business = some biz)
    (hsch : Flow.validateAndBuildSchedule env.input biz env.profile env.startParseInput =
      Except.ok schedule)
    (hw : (Flow.validateBookingTimeWindow biz env.profile env.startParseBiz
      env.nowLocalBiz).1 = true)
    (hnofound : Flow.getBookingByIdempotencyKey env.nowUtc (Flow.cleanedTable env)
      env.input.businessId (Flow.flowIdemKey env schedule) = none)
    (htok : env.tokensOk = true)
    (hfb : env.freebusyResult = Except.ok [])
    (hlock : Flow.createPendingBookingLock env.nowUtc (Flow.cleanedTable env)
      (Flow.flowLockPayload env biz env.profile schedule) = Except.ok t2) :
    Flow.createBookingFlow env =
      Flow.runInsertPhase env schedule (Flow.flowIdemKey env schedule)
        (Flow.flowIsEmergency env biz env.profile schedule) t2 env.newBookingId := by
  unfold Flow.createBookingFlow
  rw [hb]
  simp only [Option.isNone_some, Bool.and_false, Bool.false_eq_true, if_false,
    Option.getD_some, if_neg hbne, hsch, hw, Bool.not_true, hnofound, htok, hfb,
    List.isEmpty_nil, Bool.not_false, if_true, hlock]

/-- A start earlier than now-plus-lead-time fails the window validation with a
`START_TOO_SOON` detail. -/
theorem window_too_soon (biz : Flow.BusinessRow) (profile : Option Flow.EffProfile)
    (startBiz now : Int)
    (h : startBiz < now + max 0
      (((profile.bind (·.lead_time_min)).orElse fun _ => biz.lead_time_min).getD 60)) :
    (Flow.validateBookingTimeWindow biz profile (some startBiz) now).1 = false ∧
    "START_TOO_SOON" ∈ (Flow.validateBookingTimeWindow biz profile (some startBiz) now).2 := by
  unfold Flow.validateBookingTimeWindow
  simp only [if_pos h]
  constructor
  · simp
  · simp

/-- A start after the end of the horizon day fails the window validation with
a `START_TOO_FAR` detail. -/
theorem window_too_far (biz : Flow.BusinessRow) (profile : Option Flow.EffProfile)
    (startBiz now : Int)
    (h : startBiz > Flow.endOfDayMin (now + max 0
      (((profile.bind (·.max_days_ahead)).orElse fun _ => biz.max_days_ahead).getD 14)
        * 1440)) :
    (Flow.validateBookingTimeWindow biz profile (some startBiz) now).1 = false ∧
    "START_TOO_FAR" ∈ (Flow.validateBookingTimeWindow biz profile (some startBiz) now).2 := by
  unfold Flow.validateBookingTimeWindow
  simp only [if_pos h]
  constructor
  · split <;> simp
  · split <;> simp

/-- Claim C3: a request whose local start in the policy timezone is earlier
than now plus the lead time is rejected with 400
`INVALID_BOOKING_TIME_WINDOW` / `START_TOO_SOON`; one after the end of day of
now plus `max_days_ahead` days with `START_TOO_FAR`; both rejections happen
before any state change, so no booking row is created (the table is untouched
and no data-layer write runs). -/
theorem claim_C3 (env : Flow.FlowEnv) (biz : Flow.BusinessRow) (schedule : Flow.Schedule)
    (startBiz : Int)
    (hbne : env.input.businessId ≠ "")
    (hb : env.business = some biz)
    (hsch : Flow.validateAndBuildSchedule env.input biz env.profile env.startParseInput =
      Except.ok schedule)
    (hstart : env.startParseBiz = some startBiz) :
    (startBiz < env.nowLocalBiz + max 0
        (((env.profile.bind (·.lead_time_min)).orElse fun _ => biz.lead_time_min).getD 60) →
      (Flow.createBookingFlow env).status = 400 ∧
      (Flow.createBookingFlow env).error = some "INVALID_BOOKING_TIME_WINDOW" ∧
      "START_TOO_SOON" ∈ (Flow.createBookingFlow env).details ∧
      (Flow.createBookingFlow env).actions = [] ∧
      (Flow.createBookingFlow env).table = env.table) ∧
    (startBiz > Flow.endOfDayMin (env.nowLocalBiz + max 0
        (((env.profile.bind (·.max_days_ahead)).orElse fun _ => biz.max_days_ahead).getD 14)
          * 1440) →
      (Flow.createBookingFlow env).status = 400 ∧
      (Flow.createBookingFlow env).error = some "INVALID_BOOKING_TIME_WINDOW" ∧
      "START_TOO_FAR" ∈ (Flow.createBookingFlow env).details ∧
      (Flow.createBookingFlow env).actions = [] ∧
      (Flow.createBookingFlow env).table = env.table) := by
  constructor
  · intro h
    obtain ⟨hw, hmem⟩ := window_too_soon biz env.profile startBiz env.nowLocalBiz h
    rw [← hstart] at hw hmem
    rw [flow_window_reject env biz schedule hbne hb hsch hw]
    exact ⟨rfl, rfl, hmem, rfl, rfl⟩
  · intro h
    obtain ⟨hw, hmem⟩ := window_too_far biz env.profile startBiz env.nowLocalBiz h
    rw [← hstart] at hw hmem
    rw [flow_window_reject env biz schedule hbne hb hsch hw]
    exact ⟨rfl, rfl, hmem, rfl, rfl⟩

/-- Claim C2: when the idempotency lookup (after the expired-hold sweep)
finds an existing active booking for the request's business, start, duration
and normalized phone digits, the flow replays it: 200 `confirmed` with the
original booking id and no new row for a confirmed row, 202 `pending` with
that id for a pending (unexpired-hold) row. -/
theorem claim_C2 (env : Flow.FlowEnv) (biz : Flow.BusinessRow) (schedule : Flow.Schedule)
    (existing : Ledger.Booking)
    (hbne : env.input.businessId ≠ "")
    (hb : env.business = some biz)
    (hsch : Flow.validateAndBuildSchedule env.input biz env.profile env.startParseInput =
      Except.ok schedule)
    (hw : (Flow.validateBookingTimeWindow biz env.profile env.startParseBiz
      env.nowLocalBiz).1 = true)
    (hfound : Flow.getBookingByIdempotencyKey env.nowUtc (Flow.cleanedTable env)
      env.input.businessId (Flow.flowIdemKey env schedule) = some existing) :
    (existing.status = Ledger.BStatus.confirmed →
      (Flow.createBookingFlow env).status = 200 ∧
      (Flow.createBookingFlow env).bodyStatus = some "confirmed" ∧
      (Flow.createBookingFlow env).bookingId = some existing.bid ∧
      (∀ newId, Flow.FlowAction.lockInsert newId ∉ (Flow.createBookingFlow env).actions) ∧
      (Flow.createBookingFlow env).table = Flow.cleanedTable env) ∧
    (existing.status = Ledger.BStatus.pending →
      (Flow.createBookingFlow env).status = 202 ∧
      (Flow.createBookingFlow env).bodyStatus = some "pending" ∧
      (Flow.createBookingFlow env).bookingId = some existing.bid ∧
      (∀ newId, Flow.FlowAction.lockInsert newId ∉ (Flow.createBookingFlow env).actions) ∧
      (Flow.createBookingFlow env).table = Flow.cleanedTable env) := by
  have hred := flow_replay env biz schedule existing hbne hb hsch hw hfound
  constructor
  · intro hconf
    rw [hred, if_pos hconf]
    refine ⟨rfl, rfl, rfl, ?_, rfl⟩
    intro newId hmem
    simp at hmem
  · intro hpend
    have hne : ¬existing.status = Ledger.BStatus.confirmed := by
      rw [hpend]
      exact fun hc => Ledger.BStatus.noConfusion hc
    rw [hred, if_neg hne]
    refine ⟨rfl, rfl, rfl, ?_, rfl⟩
    intro newId hmem
    simp at hmem

/-- A successful `createPendingBookingLock` appends exactly the new pending
row, retrievable by its id. -/
theorem lock_ok_spec (now : Int) (tbl : Ledger.BookingsTable) (p : Flow.LockPayload)
    (t2 : Ledger.BookingsTable)
    (h : Flow.createPendingBookingLock now tbl p = Except.ok t2) :
    t2 = tbl ++ [Flow.mkLockBooking p] ∧
    Ledger.getBookingById t2 p.pid = some (Flow.mkLockBooking p) := by
  unfold Flow.createPendingBookingLock at h
  by_cases h1 : (tbl.any fun b => Flow.activeIdxUnique now b &&
      decide (b.idempotency_key = some p.idempotency_key)) = true
  · rw [if_pos h1] at h
    exact absurd h (by simp)
  · rw [if_neg h1] at h
    by_cases h2 : (tbl.any fun b => Flow.activeIdxUnique now b &&
        decide (b.slot_key = p.slot_key)) = true
    · rw [if_pos h2] at h
      exact absurd h (by simp)
    · rw [if_neg h2] at h
      by_cases h3 : (tbl.any fun b => decide (b.bid = p.pid)) = true
      · rw [if_pos h3] at h
        exact absurd h (by simp)
      · rw [if_neg h3] at h
        rw [Except.ok.injEq] at h
        subst h
        refine ⟨rfl, ?_⟩
        unfold Ledger.getBookingById
        rw [List.find?_append]
        have hnone : List.find? (fun b => decide (b.bid = p.pid)) tbl = none := by
          rw [List.find?_eq_none]
          intro b hb hc
          exact h3 (List.any_eq_true.mpr ⟨b, hb, hc⟩)
        rw [hnone]
        simp [Flow.mkLockBooking]

/-- `failBooking` on a pending booking succeeds and leaves the row `failed`
with the failure reason recorded. -/
theorem failBooking_pending_spec (tbl : Ledger.BookingsTable) (bookingId : String)
    (r : Option String) (bk : Ledger.Booking)
    (hfind : Ledger.getBookingById tbl bookingId = some bk)
    (hp : bk.status = Ledger.BStatus.pending) :
    ∃ t', Ledger.failBooking tbl bookingId r = Except.ok t' ∧
      Ledger.getBookingById t' bookingId = some
        { bk with
          status := Ledger.BStatus.failed
          hold_expires_at_utc := none
          failure_reason := jsOrNull r
          job_summary := some (match jsOrNull r with
            | some s => "FAILED: " ++ s
            | none => "FAILED") } := by
  have hbid : bk.bid = bookingId := by
    have := List.find?_some hfind
    simpa using this
  have hallow : Ledger.allowedTransition bk.status Ledger.BStatus.failed = true := by
    rw [hp]
    rfl
  unfold Ledger.failBooking Ledger.updateBookingStatus
  rw [show Ledger.getBookingById tbl bookingId = some bk from hfind]
  simp only [hallow, if_true]
  refine ⟨_, rfl, ?_⟩
  unfold Ledger.getBookingById
  rw [List.find?_map]
  have hfun : ((fun b => decide (b.bid = bookingId)) ∘ fun b =>
      if b.bid = bookingId then
        Ledger.applyFields
          { hold_expires_at_utc := some none
            failure_reason := some (jsOrNull r)
            job_summary := some (some (match jsOrNull r with
              | some s => "FAILED: " ++ s
              | none => "FAILED")) }
          { b with status := Ledger.BStatus.failed }
      else b) = fun b => decide (b.bid = bookingId) := by
    funext b
    by_cases hc : b.bid = bookingId
    · simp [hc, Ledger.applyFields]
    · simp [hc]
  rw [hfun]
  rw [show List.find? (fun b => decide (b.bid = bookingId)) tbl = some bk from hfind]
  rw [Option.map_some']
  rw [if_pos hbid]
  simp [Ledger.applyFields]

/-- `failFinish` produces the 500 response, the `didFail` action, and the
`failed` row with `GOOGLE_EVENTS_INSERT_FAILED` recorded. -/
theorem failFinish_spec (t2 : Ledger.BookingsTable) (bookingId : String)
    (acts : List Flow.FlowAction) (bk : Ledger.Booking)
    (hfind : Ledger.getBookingById t2 bookingId = some bk)
    (hp : bk.status = Ledger.BStatus.pending) :
    (Flow.failFinish t2 bookingId acts).status = 500 ∧
    (Flow.failFinish t2 bookingId acts).error = some "Internal error" ∧
    Flow.FlowAction.didFail bookingId "GOOGLE_EVENTS_INSERT_FAILED" ∈
      (Flow.failFinish t2 bookingId acts).actions ∧
    ∃ bk', Ledger.getBookingById (Flow.failFinish t2 bookingId acts).table bookingId =
        some bk' ∧
      bk'.status = Ledger.BStatus.failed ∧
      bk'.failure_reason = some "GOOGLE_EVENTS_INSERT_FAILED" := by
  obtain ⟨t', ht', hrow⟩ := failBooking_pending_spec t2 bookingId
    (some "GOOGLE_EVENTS_INSERT_FAILED") bk hfind hp
  unfold Flow.failFinish
  rw [ht']
  refine ⟨rfl, rfl, by simp, ?_⟩
  exact ⟨_, hrow, rfl, rfl⟩

/-- Claim C4 (amended: "and the idempotency recovery lookup does not produce
a matching existing event"; see the counterexample for the recovery path):
when every insert attempt the flow makes fails and no existing calendar event
is recovered, the booking row is transitioned to `failed` with failure code
`GOOGLE_EVENTS_INSERT_FAILED` and the HTTP status returned is 500. -/
theorem claim_C4 (env : Flow.FlowEnv) (biz : Flow.BusinessRow) (schedule : Flow.Schedule)
    (t2 : Ledger.BookingsTable)
    (hbne : env.input.businessId ≠ "")
    (hb : env.business = some biz)
    (hsch : Flow.validateAndBuildSchedule env.input biz env.profile env.startParseInput =
      Except.ok schedule)
    (hw : (Flow.validateBookingTimeWindow biz env.profile env.startParseBiz
      env.nowLocalBiz).1 = true)
    (hnofound : Flow.getBookingByIdempotencyKey env.nowUtc (Flow.cleanedTable env)
      env.input.businessId (Flow.flowIdemKey env schedule) = none)
    (htok : env.tokensOk = true)
    (hfb : env.freebusyResult = Except.ok [])
    (hlock : Flow.createPendingBookingLock env.nowUtc (Flow.cleanedTable env)
      (Flow.flowLockPayload env biz env.profile schedule) = Except.ok t2)
    (hfail1 : ∃ tr1, env.ins1 = Flow.InsertOutcome.errIns tr1)
    (hfail2 : ∃ tr2, env.ins2 = Flow.InsertOutcome.errIns tr2)
    (hrec : Flow.recoverEvent env (Flow.flowIdemKey env schedule) schedule = none) :
    (Flow.createBookingFlow env).status = 500 ∧
    (Flow.createBookingFlow env).error = some "Internal error" ∧
    Flow.FlowAction.didFail env.newBookingId "GOOGLE_EVENTS_INSERT_FAILED" ∈
      (Flow.createBookingFlow env).actions ∧
    ∃ bk, Ledger.getBookingById (Flow.createBookingFlow env).table env.newBookingId =
        some bk ∧
      bk.status = Ledger.BStatus.failed ∧
      bk.failure_reason = some "GOOGLE_EVENTS_INSERT_FAILED" := by
  have hred := flow_reaches_insert env biz schedule t2 hbne hb hsch hw hnofound htok hfb hlock
  obtain ⟨-, hfind2⟩ := lock_ok_spec env.nowUtc (Flow.cleanedTable env)
    (Flow.flowLockPayload env biz env.profile schedule) t2 hlock
  have hff := failFinish_spec t2 env.newBookingId
    [Flow.FlowAction.cleanupHolds, Flow.FlowAction.lockInsert env.newBookingId]
    (Flow.mkLockBooking (Flow.flowLockPayload env biz env.profile schedule)) hfind2 rfl
  rw [hred]
  unfold Flow.runInsertPhase
  obtain ⟨tr1, h1⟩ := hfail1
  rw [h1]
  cases tr1 with
  | false =>
    simp only [Bool.not_false, if_true]
    exact hff
  | true =>
    simp only [Bool.not_true, Bool.false_eq_true, if_false]
    rw [hrec]
    obtain ⟨tr2, h2⟩ := hfail2
    rw [h2]
    exact hff

/-- Claim C3 witness: the theorem applied to `sampleEnv` with a local start
only 30 minutes after now (lead time 60), and with one 15 days and a bit
ahead (horizon 14 days). -/
theorem claim_C3_witness :
    ((Flow.createBookingFlow { Flow.sampleEnv with startParseBiz := some 500030 }).status =
        400 ∧
      (Flow.createBookingFlow { Flow.sampleEnv with startParseBiz := some 500030 }).error =
        some "INVALID_BOOKING_TIME_WINDOW" ∧
      "START_TOO_SOON" ∈
        (Flow.createBookingFlow { Flow.sampleEnv with startParseBiz := some 500030 }).details ∧
      (Flow.createBookingFlow { Flow.sampleEnv with startParseBiz := some 500030 }).actions =
        [] ∧
      (Flow.createBookingFlow { Flow.sampleEnv with startParseBiz := some 500030 }).table =
        []) ∧
    ((Flow.createBookingFlow { Flow.sampleEnv with startParseBiz := some 522000 }).status =
        400 ∧
      "START_TOO_FAR" ∈
        (Flow.createBookingFlow { Flow.sampleEnv with startParseBiz := some 522000 }).details ∧
      (Flow.createBookingFlow { Flow.sampleEnv with startParseBiz := some 522000 }).actions =
        []) := by
  constructor
  · obtain ⟨hsoon, -⟩ := claim_C3 { Flow.sampleEnv with startParseBiz := some 500030 }
      Flow.sampleBusiness Flow.sampleSchedule 500030 (by decide) rfl rfl rfl
    exact hsoon (by decide)
  · obtain ⟨-, hfar⟩ := claim_C3 { Flow.sampleEnv with startParseBiz := some 522000 }
      Flow.sampleBusiness Flow.sampleSchedule 522000 (by decide) rfl rfl rfl
    obtain ⟨h1, -, h3, h4, -⟩ := hfar (by decide)
    exact ⟨h1, h3, h4⟩

/-- Claim C2 witness: the theorem applied to `sampleEnv` over a table holding
a confirmed booking with the request's idempotency key, and over one holding
a pending unexpired hold with that key. -/
theorem claim_C2_witness :
    ((Flow.createBookingFlow { Flow.sampleEnv with table := [Flow.sampleExisting] }).status =
        200 ∧
      (Flow.createBookingFlow
          { Flow.sampleEnv with table := [Flow.sampleExisting] }).bodyStatus =
        some "confirmed" ∧
      (Flow.createBookingFlow
          { Flow.sampleEnv with table := [Flow.sampleExisting] }).bookingId =
        some "old1" ∧
      ∀ newId, Flow.FlowAction.lockInsert newId ∉
        (Flow.createBookingFlow { Flow.sampleEnv with table := [Flow.sampleExisting] }).actions) ∧
    ((Flow.createBookingFlow
        { Flow.sampleEnv with
            table := [{ Flow.sampleExisting with
              status := Ledger.BStatus.pending,
              hold_expires_at_utc := some 1000100 }] }).status = 202 ∧
      (Flow.createBookingFlow
        { Flow.sampleEnv with
            table := [{ Flow.sampleExisting with
              status := Ledger.BStatus.pending,
              hold_expires_at_utc := some 1000100 }] }).bodyStatus = some "pending" ∧
      (Flow.createBookingFlow
        { Flow.sampleEnv with
            table := [{ Flow.sampleExisting with
              status := Ledger.BStatus.pending,
              hold_expires_at_utc := some 1000100 }] }).bookingId = some "old1") := by
  constructor
  · obtain ⟨hconf, -⟩ := claim_C2 { Flow.sampleEnv with table := [Flow.sampleExisting] }
      Flow.sampleBusiness Flow.sampleSchedule Flow.sampleExisting
      (by decide) rfl rfl rfl rfl
    obtain ⟨h1, h2, h3, h4, -⟩ := hconf rfl
    exact ⟨h1, h2, h3, h4⟩
  · obtain ⟨-, hpend⟩ := claim_C2
      { Flow.sampleEnv with
          table := [{ Flow.sampleExisting with
            status := Ledger.BStatus.pending,
            hold_expires_at_utc := some 1000100 }] }
      Flow.sampleBusiness Flow.sampleSchedule
      { Flow.sampleExisting with
          status := Ledger.BStatus.pending,
          hold_expires_at_utc := some 1000100 }
      (by decide) rfl rfl rfl rfl
    obtain ⟨h1, h2, h3, -, -⟩ := hpend rfl
    exact ⟨h1, h2, h3⟩

/-- Claim C4 witness: the amended theorem applied to `sampleEnv` with a
transiently failing first insert, a failing second insert and an empty
recovery lookup. -/
theorem claim_C4_witness :
    (Flow.createBookingFlow
        { Flow.sampleEnv with
            ins1 := Flow.InsertOutcome.errIns true,
            ins2 := Flow.InsertOutcome.errIns false }).status = 500 ∧
    (Flow.createBookingFlow
        { Flow.sampleEnv with
            ins1 := Flow.InsertOutcome.errIns true,
            ins2 := Flow.InsertOutcome.errIns false }).error = some "Internal error" ∧
    Flow.FlowAction.didFail "bk-1" "GOOGLE_EVENTS_INSERT_FAILED" ∈
      (Flow.createBookingFlow
        { Flow.sampleEnv with
            ins1 := Flow.InsertOutcome.errIns true,
            ins2 := Flow.InsertOutcome.errIns false }).actions ∧
    ∃ bk, Ledger.getBookingById
        (Flow.createBookingFlow
          { Flow.sampleEnv with
              ins1 := Flow.InsertOutcome.errIns true,
              ins2 := Flow.InsertOutcome.errIns false }).table "bk-1" = some bk ∧
      bk.status = Ledger.BStatus.failed ∧
      bk.failure_reason = some "GOOGLE_EVENTS_INSERT_FAILED" := by
  exact claim_C4
    { Flow.sampleEnv with
        ins1 := Flow.InsertOutcome.errIns true,
        ins2 := Flow.InsertOutcome.errIns false }
    Flow.sampleBusiness Flow.sampleSchedule
    [Flow.mkLockBooking (Flow.flowLockPayload
      { Flow.sampleEnv with
          ins1 := Flow.InsertOutcome.errIns true,
          ins2 := Flow.InsertOutcome.errIns false }
      Flow.sampleBusiness (some Flow.sampleProfile) Flow.sampleSchedule)]
    (by decide) rfl rfl rfl rfl rfl rfl rfl ⟨true, rfl⟩ ⟨false, rfl⟩ rfl

/-- Claim C4 counterexample to the claim as stated: both insert attempts
fail (the first transiently), but the idempotency recovery lookup finds a
matching existing event, so the flow confirms the booking and returns 200 —
not `failed` with 500. -/
theorem claim_C4_counterexample :
    ({ Flow.sampleEnv with
        ins1 := Flow.InsertOutcome.errIns true,
        ins2 := Flow.InsertOutcome.errIns false,
        lookupEvent := some Flow.sampleEvent } : Flow.FlowEnv).ins1 =
      Flow.InsertOutcome.errIns true ∧
    ({ Flow.sampleEnv with
        ins1 := Flow.InsertOutcome.errIns true,
        ins2 := Flow.InsertOutcome.errIns false,
        lookupEvent := some Flow.sampleEvent } : Flow.FlowEnv).ins2 =
      Flow.InsertOutcome.errIns false ∧
    (Flow.createBookingFlow
        { Flow.sampleEnv with
            ins1 := Flow.InsertOutcome.errIns true,
            ins2 := Flow.InsertOutcome.errIns false,
            lookupEvent := some Flow.sampleEvent }).status = 200 ∧
    (Flow.createBookingFlow
        { Flow.sampleEnv with
            ins1 := Flow.InsertOutcome.errIns true,
            ins2 := Flow.InsertOutcome.errIns false,
            lookupEvent := some Flow.sampleEvent }).bodyStatus = some "confirmed" ∧
    (Flow.createBookingFlow
        { Flow.sampleEnv with
            ins1 := Flow.InsertOutcome.errIns true,
            ins2 := Flow.InsertOutcome.errIns false,
            lookupEvent := some Flow.sampleEvent }).actions =
      [Flow.FlowAction.cleanupHolds, Flow.FlowAction.lockInsert "bk-1",
        Flow.FlowAction.didConfirm "bk-1" (some "ev9")] ∧
    ∃ bk, Ledger.getBookingById
        (Flow.createBookingFlow
          { Flow.sampleEnv with
              ins1 := Flow.InsertOutcome.errIns true,
              ins2 := Flow.InsertOutcome.errIns false,
              lookupEvent := some Flow.sampleEvent }).table "bk-1" = some bk ∧
      bk.status = Ledger.BStatus.confirmed := by
  refine ⟨rfl, rfl, ?_, ?_, ?_, ?_⟩ <;>
    first
      | rfl
      | exact ⟨_, rfl, rfl⟩

end Spec2Proof
